import Mathlib

/-!
Verification of the speedy repository's core: the filter-graph builder
(`FFmpegCommand` fluent interface, `src/speedy-core/src/ffmpeg_wrapper.rs`),
the command assembler (`FFmpegCommand::build`), the exit-status reconciliation
of `FFmpegCommand::execute`, the progress monitor's line parser, and the
option parsing of `VideoProcessor` (`src/speedy-core/src/video_processor.rs`).

Modelling conventions:
* Rust `f64`/`f32` values are modelled as `ℚ`.  Every arithmetic operation the
  modelled code performs on them (multiplication and division by 2, comparison
  against the literals 0.5, 1.0 and 2.0, sums of products with 3600/60/1/100)
  is exact in binary floating point over the relevant ranges, so `ℚ` tracks
  the source semantics; non-finite values (inf/NaN) are outside the model and
  noted where they could arise.
* The two `while` loops of `FFmpegCommand::speed` are modelled by
  fuel-indexed recursive functions (`chainDownF`, `chainUp`); `none` means the
  fuel ran out.  `speedChainFuel` is a computable fuel bound proven sufficient
  whenever the Rust loops terminate (every multiplier `m > 0`), and for
  `m ≤ 0` the doubling loop is proven to exhaust every fuel, matching the
  non-termination of the source loop.
* Strings pushed by the builder methods are modelled by an inductive filter
  type carrying the numeric parameters; `VideoFilter.render` reproduces the
  `format!` strings, with `fmtFixed` standing for Rust's fixed-precision float
  formatting (round half to even).
-/

namespace Speedy

/-- Round a rational to the nearest integer, ties to even: the rounding Rust's
fixed-precision float formatting applies to the decimal expansion. -/
def roundHalfEven (q : ℚ) : ℤ :=
  let f : ℤ := ⌊q⌋
  let r : ℚ := q - f
  if r < 1/2 then f
  else if 1/2 < r then f + 1
  else if f % 2 = 0 then f else f + 1

/-- Pad a numeral string with leading zeros to the given length. -/
def padZeros (s : String) (len : ℕ) : String :=
  String.mk (List.replicate (len - s.length) '0') ++ s

/-- Model of Rust `format!` with a fixed number of decimals (e.g. a precision
of 4 models `{:.4}` — braces written here in words to describe the format
string).  Renders sign, integer part, a dot and exactly `prec` fraction
digits. -/
def fmtFixed (prec : ℕ) (q : ℚ) : String :=
  let n : ℤ := roundHalfEven (q * (10 : ℚ) ^ prec)
  let sign : String := if n < 0 then "-" else ""
  let a : ℕ := n.natAbs
  if prec = 0 then sign ++ toString a
  else sign ++ toString (a / 10 ^ prec) ++ "." ++ padZeros (toString (a % 10 ^ prec)) prec

/-- One entry of `FFmpegCommand.video_filters`.  Each constructor stands for
the exact string the corresponding builder method of
`src/speedy-core/src/ffmpeg_wrapper.rs` pushes; `render` recovers the text. -/
inductive VideoFilter where
  /-- `setpts={:.4}*PTS` pushed by `speed`, carrying the factor `1/multiplier`. -/
  | setpts (factor : ℚ)
  /-- `lut3d=<path>` pushed by `lut3d`. -/
  | lut3d (path : String)
  /-- `eq=contrast={:.2}` pushed by `contrast`. -/
  | eqContrast (value : ℚ)
  /-- `eq=saturation={:.2}` pushed by `saturation`. -/
  | eqSaturation (value : ℚ)
  /-- `eq=contrast={:.2}:saturation={:.2}` pushed by `color_enhance`. -/
  | eqCS (contrast saturation : ℚ)
  /-- `deshake` pushed by `stabilize`. -/
  | deshake
  /-- `transpose=0` or `transpose=1` pushed by `rotate`. -/
  | transpose (direction : ℕ)
  /-- `transpose=2,transpose=2` pushed by `rotate 2`. -/
  | transpose180
  /-- `scale=<w>:<h>` pushed by `scale`. -/
  | scale (width height : ℤ)
  /-- `crop=<w>:<h>:<x>:<y>` pushed by `crop`. -/
  | crop (width height x y : ℕ)
  /-- `nlmeans=s=<strength>` pushed by `denoise`. -/
  | nlmeans (strength : ℕ)
  /-- `unsharp=5:5:{:.2}:5:5:{:.2}` pushed by `sharpen` (second value is half
  the first). -/
  | unsharp (strength : ℚ)
  /-- `vibrance=intensity={:.2}` pushed by `vibrance`. -/
  | vibrance (intensity : ℚ)
  /-- `curves=<s>` pushed by `curves`. -/
  | curves (s : String)
  /-- `colorbalance=rs=..:gs=..:bs=..:rm=..:gm=..:bm=..:rh=..:gh=..:bh=..`
  pushed by `color_balance`. -/
  | colorbalance (rs gs bs rm gm bm rh gh bh : ℚ)
  /-- `hue=h={:.1}` pushed by `hue_shift`. -/
  | hue (degrees : ℚ)
  /-- `selectivecolor=<config>` pushed by `selective_color`. -/
  | selectivecolor (config : String)
  /-- An arbitrary filter string pushed by the generic `video_filter` method. -/
  | raw (s : String)
deriving DecidableEq, Repr

/-- One entry of `FFmpegCommand.audio_filters`. -/
inductive AudioFilter where
  /-- The literal string `atempo=2.0` pushed inside the halving loop of
  `speed`. -/
  | atempo2
  /-- The literal string `atempo=0.5` pushed inside the doubling loop of
  `speed`. -/
  | atempoHalf
  /-- `atempo={:.4}` pushed for an in-range multiplier or a residual. -/
  | atempo (factor : ℚ)
  /-- An arbitrary filter string pushed by the generic `audio_filter` method. -/
  | raw (s : String)
deriving DecidableEq, Repr

/-- The audio tempo factor a filter entry stands for (`raw` entries carry no
tempo factor; the claims only apply this to entries pushed by `speed`). -/
def AudioFilter.tempoFactor : AudioFilter → ℚ
  | .atempo2 => 2
  | .atempoHalf => 1/2
  | .atempo f => f
  | .raw _ => 0

/-- Render of a video filter entry: the exact string the source pushes. -/
def VideoFilter.render : VideoFilter → String
  | .setpts f => "setpts=" ++ fmtFixed 4 f ++ "*PTS"
  | .lut3d p => "lut3d=" ++ p
  | .eqContrast v => "eq=contrast=" ++ fmtFixed 2 v
  | .eqSaturation v => "eq=saturation=" ++ fmtFixed 2 v
  | .eqCS c s => "eq=contrast=" ++ fmtFixed 2 c ++ ":saturation=" ++ fmtFixed 2 s
  | .deshake => "deshake"
  | .transpose d => "transpose=" ++ toString d
  | .transpose180 => "transpose=2,transpose=2"
  | .scale w h => "scale=" ++ toString w ++ ":" ++ toString h
  | .crop w h x y =>
      "crop=" ++ toString w ++ ":" ++ toString h ++ ":" ++ toString x ++ ":" ++ toString y
  | .nlmeans s => "nlmeans=s=" ++ toString s
  | .unsharp s => "unsharp=5:5:" ++ fmtFixed 2 s ++ ":5:5:" ++ fmtFixed 2 (s * (1/2))
  | .vibrance i => "vibrance=intensity=" ++ fmtFixed 2 i
  | .curves s => "curves=" ++ s
  | .colorbalance rs gs bs rm gm bm rh gh bh =>
      "colorbalance=rs=" ++ fmtFixed 2 rs ++ ":gs=" ++ fmtFixed 2 gs ++
      ":bs=" ++ fmtFixed 2 bs ++ ":rm=" ++ fmtFixed 2 rm ++ ":gm=" ++ fmtFixed 2 gm ++
      ":bm=" ++ fmtFixed 2 bm ++ ":rh=" ++ fmtFixed 2 rh ++ ":gh=" ++ fmtFixed 2 gh ++
      ":bh=" ++ fmtFixed 2 bh
  | .hue d => "hue=h=" ++ fmtFixed 1 d
  | .selectivecolor c => "selectivecolor=" ++ c
  | .raw s => s

/-- Render of an audio filter entry. -/
def AudioFilter.render : AudioFilter → String
  | .atempo2 => "atempo=2.0"
  | .atempoHalf => "atempo=0.5"
  | .atempo f => "atempo=" ++ fmtFixed 4 f
  | .raw s => s

/-- Model of the `FFmpegCommand` struct (ffmpeg_wrapper.rs lines 10-26).
Paths are strings; `u32`/`u8`/`usize` fields are `ℕ`. -/
structure FFmpegCommand where
  input : String
  output : String
  video_filters : List VideoFilter
  audio_filters : List AudioFilter
  video_codec : Option String
  audio_codec : Option String
  bitrate : Option ℕ
  quality : Option ℕ
  preset : Option String
  threads : Option ℕ
  overwrite : Bool
  extra_args : List String
  metadata_args : List String
  hw_accel : Option String
deriving DecidableEq, Repr

namespace FFmpegCommand

/-- Model of `FFmpegCommand::new`. -/
def new (input output : String) : FFmpegCommand :=
  { input := input
    output := output
    video_filters := []
    audio_filters := []
    video_codec := none
    audio_codec := none
    bitrate := none
    quality := none
    preset := none
    threads := none
    overwrite := false
    extra_args := []
    metadata_args := []
    hw_accel := none }

/-- Model of `FFmpegCommand::video_codec`. -/
def video_codecSet (cmd : FFmpegCommand) (codec : String) : FFmpegCommand :=
  { cmd with video_codec := some codec }

/-- Model of `FFmpegCommand::audio_codec`. -/
def audio_codecSet (cmd : FFmpegCommand) (codec : String) : FFmpegCommand :=
  { cmd with audio_codec := some codec }

/-- Model of `FFmpegCommand::bitrate`. -/
def bitrateSet (cmd : FFmpegCommand) (mbps : ℕ) : FFmpegCommand :=
  { cmd with bitrate := some mbps }

/-- Model of `FFmpegCommand::quality`. -/
def qualitySet (cmd : FFmpegCommand) (crf : ℕ) : FFmpegCommand :=
  { cmd with quality := some crf }

/-- Model of `FFmpegCommand::preset`. -/
def presetSet (cmd : FFmpegCommand) (p : String) : FFmpegCommand :=
  { cmd with preset := some p }

/-- Model of `FFmpegCommand::threads`. -/
def threadsSet (cmd : FFmpegCommand) (count : ℕ) : FFmpegCommand :=
  { cmd with threads := some count }

/-- Model of `FFmpegCommand::overwrite`. -/
def overwriteSet (cmd : FFmpegCommand) : FFmpegCommand :=
  { cmd with overwrite := true }

/-- Model of `FFmpegCommand::hardware_accel`. -/
def hardware_accel (cmd : FFmpegCommand) (method : String) : FFmpegCommand :=
  { cmd with hw_accel := some method }

/-- Model of `FFmpegCommand::video_filter`. -/
def video_filter (cmd : FFmpegCommand) (f : String) : FFmpegCommand :=
  { cmd with video_filters := cmd.video_filters ++ [.raw f] }

/-- Model of `FFmpegCommand::audio_filter`. -/
def audio_filter (cmd : FFmpegCommand) (f : String) : FFmpegCommand :=
  { cmd with audio_filters := cmd.audio_filters ++ [.raw f] }

end FFmpegCommand

/-- Fuelled model of the first `while` loop of `FFmpegCommand::speed`
(ffmpeg_wrapper.rs lines 123-126): while `current > 2.0` push `atempo=2.0`
and halve `current`.  Returns the pushed entries and the final value of
`current`; `none` when the fuel ran out before the loop exited. -/
def chainDownF : ℕ → ℚ → Option (List AudioFilter × ℚ)
  | 0, current => if 2 < current then none else some ([], current)
  | fuel + 1, current =>
      if 2 < current then
        (chainDownF fuel (current / 2)).map fun p => (.atempo2 :: p.1, p.2)
      else some ([], current)

/-- Fuelled model of the second `while` loop of `FFmpegCommand::speed`
(ffmpeg_wrapper.rs lines 131-134): while `current < 0.5` push `atempo=0.5`
and double `current`. -/
def chainUp : ℕ → ℚ → Option (List AudioFilter × ℚ)
  | 0, current => if current < 1/2 then none else some ([], current)
  | fuel + 1, current =>
      if current < 1/2 then
        (chainUp fuel (current * 2)).map fun p => (.atempoHalf :: p.1, p.2)
      else some ([], current)

/-- The out-of-range branch of `FFmpegCommand::speed` (ffmpeg_wrapper.rs lines
121-137): the halving loop, a residual stage if `current > 1.0` remains, the
doubling loop, and a residual stage if `current < 1.0` remains.  Neither
residual push changes `current`, exactly as in the source. -/
def atempoChain (fuel : ℕ) (m : ℚ) : Option (List AudioFilter) :=
  match chainDownF fuel m with
  | none => none
  | some (l₁, c₁) =>
      let mid : List AudioFilter := if 1 < c₁ then [.atempo c₁] else []
      match chainUp fuel c₁ with
      | none => none
      | some (l₂, c₂) =>
          some (l₁ ++ mid ++ l₂ ++ (if c₂ < 1 then [.atempo c₂] else []))

/-- Computable fuel bound for `atempoChain`, proven sufficient for every
multiplier `m > 0` (`speedChainFuel_sufficient`). -/
def speedChainFuel (m : ℚ) : ℕ := m.num.toNat + m.den

/-- The audio filter entries `FFmpegCommand::speed` pushes for a multiplier
`m ≠ 1` when audio is present: one `atempo={:.4}` stage for `m` in
`[0.5, 2.0]`, otherwise the chained stages; `none` models the source loop
never exiting. -/
def speedAudio (m : ℚ) : Option (List AudioFilter) :=
  if 1/2 ≤ m ∧ m ≤ 2 then some [.atempo m]
  else atempoChain (speedChainFuel m) m

/-- Model of `FFmpegCommand::speed` (ffmpeg_wrapper.rs lines 110-142).
For `m ≠ 1` pushes the video `setpts` stage with factor `1/m`, then, if
`has_audio`, the audio tempo stages; `none` models the source diverging
(which `speed_diverges_nonpositive` shows happens exactly on the fuel-free
doubling loop for `m ≤ 0`). -/
def FFmpegCommand.speed (cmd : FFmpegCommand) (multiplier : ℚ) (has_audio : Bool) :
    Option FFmpegCommand :=
  if multiplier = 1 then some cmd
  else
    let cmd' := { cmd with video_filters := cmd.video_filters ++ [.setpts (1 / multiplier)] }
    if has_audio then
      (speedAudio multiplier).map fun stages =>
        { cmd' with audio_filters := cmd'.audio_filters ++ stages }
    else some cmd'

/-- Rust `Debug` formatting of `ExitStatus::code()`, an optional `i32`:
`Some(n)` or `None` (a child killed by a signal has no numeric exit code,
and `status.success()` is false for it). -/
def fmtOptionCode : Option ℤ → String
  | some n => "Some(" ++ toString n ++ ")"
  | none => "None"

/-- Model of the exit-status reconciliation closing `FFmpegCommand::execute`
(ffmpeg_wrapper.rs lines 479-487): given the child's exit code (`none` =
killed by a signal) and the transcript the reader thread returned, produce
the error-log lines emitted (`log::error!`) and the function's result.  The
returned error message interpolates `status.code()` with Debug formatting
and points at the logs; the transcript itself goes only to the log. -/
def executeReconcile (code : Option ℤ) (all_output : String) :
    List String × Except String Unit :=
  if code = some 0 then ([], Except.ok ())
  else
    (["FFmpeg failed with output:\n" ++ all_output],
     Except.error ("FFmpeg failed with exit code: " ++ fmtOptionCode code ++
       ". Check logs for details."))

/-- Two ASCII digits at the head of the character list (the regex `\d{2}`,
restricted to ASCII as all modelled inputs are), with the remaining
characters.  Rust's `\d` is Unicode-aware; the difference is immaterial for
every string a claim touches. -/
def twoDigitsCh : List Char → Option (ℕ × List Char)
  | a :: b :: rest =>
      if a.isDigit ∧ b.isDigit then
        some ((a.toNat - 48) * 10 + (b.toNat - 48), rest)
      else none
  | _ => none

/-- The clock pattern `(\d{2}):(\d{2}):(\d{2})\.(\d{2})` at the head of the
character list, returning the four captured two-digit numbers. -/
def matchClock (l : List Char) : Option (ℕ × ℕ × ℕ × ℕ) :=
  match twoDigitsCh l with
  | some (h, ':' :: r1) =>
      match twoDigitsCh r1 with
      | some (mnt, ':' :: r2) =>
          match twoDigitsCh r2 with
          | some (sec, '.' :: r3) =>
              match twoDigitsCh r3 with
              | some (cent, _) => some (h, mnt, sec, cent)
              | none => none
          | _ => none
      | _ => none
  | _ => none

/-- Leftmost match of `key` immediately followed by the clock pattern: the
regex `key(\d{2}):(\d{2}):(\d{2})\.(\d{2})` searched anywhere in the line,
as `Regex::captures` does. -/
def findKeyClock (key : List Char) : List Char → Option (ℕ × ℕ × ℕ × ℕ)
  | [] => none
  | c :: rest =>
      match (if key.isPrefixOf (c :: rest) then matchClock ((c :: rest).drop key.length)
             else none) with
      | some t => some t
      | none => findKeyClock key rest

/-- Seconds denoted by a captured clock `HH:MM:SS.cc`:
`hours*3600 + minutes*60 + seconds + centis/100` (ffmpeg_wrapper.rs lines
434-439 and 444-448; the two-digit captures always parse). -/
def clockToSecs (h mnt sec cent : ℕ) : ℚ :=
  (h : ℚ) * 3600 + (mnt : ℚ) * 60 + (sec : ℚ) + (cent : ℚ) / 100

/-- Total-duration announcement in a diagnostic line: the source's
`duration_regex` (`Duration: ` then the clock). -/
def lineDuration (line : String) : Option ℚ :=
  (findKeyClock "Duration: ".data line.data).map fun t =>
    clockToSecs t.1 t.2.1 t.2.2.1 t.2.2.2

/-- Progress announcement in a diagnostic line: the source's
`progress_regex` (`time=` then the clock). -/
def lineTime (line : String) : Option ℚ :=
  (findKeyClock "time=".data line.data).map fun t =>
    clockToSecs t.1 t.2.1 t.2.2.1 t.2.2.2

/-- State of the stderr reader thread of `FFmpegCommand::execute`
(ffmpeg_wrapper.rs lines 418-460): the parsed total duration, the transcript
accumulated so far, and the samples pushed onto the channel in order. -/
structure MonitorState where
  total_duration : Option ℚ
  all_output : String
  sent : List (ℚ × String)
deriving DecidableEq, Repr

/-- Processing of one diagnostic line by the reader thread (ffmpeg_wrapper.rs
lines 426-458): append the line to the transcript; parse the total duration
only while it is unknown; on a progress match with the total known, send
`min(current/total*100, 100)` with the raw line; finally always send the
catch-all `(0, line)` sample. -/
def processLine (st : MonitorState) (line : String) : MonitorState :=
  let st1 : MonitorState := { st with all_output := st.all_output ++ line ++ "\n" }
  let st2 : MonitorState :=
    match st1.total_duration, lineDuration line with
    | none, some d => { st1 with total_duration := some d }
    | _, _ => st1
  let st3 : MonitorState :=
    match lineTime line, st2.total_duration with
    | some e, some d => { st2 with sent := st2.sent ++ [(min (e / d * 100) 100, line)] }
    | _, _ => st2
  { st3 with sent := st3.sent ++ [(0, line)] }

/-- The reader thread's starting state. -/
def initMonitor : MonitorState := ⟨none, "", []⟩

/-- The reader thread run over a whole diagnostic stream, line by line. -/
def runMonitor (lines : List String) : MonitorState :=
  lines.foldl processLine initMonitor

/-- Samples the consumer thread passes to the caller's callback: the channel
preserves order, and the consumer forwards exactly the samples with strictly
positive percentage (ffmpeg_wrapper.rs lines 463-469). -/
def deliveredSamples (lines : List String) : List (ℚ × String) :=
  (runMonitor lines).sent.filter (fun p => 0 < p.1)

/-- The callback invocations: each delivered sample's percentage with the
message the consumer formats for it. -/
def callbackEvents (lines : List String) : List (ℚ × String) :=
  (deliveredSamples lines).map fun p => (p.1, "Processing: " ++ fmtFixed 1 p.1 ++ "%")

/-- Model of `FFmpegCommand::contrast`. -/
def FFmpegCommand.contrast (cmd : FFmpegCommand) (value : ℚ) : FFmpegCommand :=
  { cmd with video_filters := cmd.video_filters ++ [.eqContrast value] }

/-- Model of `FFmpegCommand::saturation`. -/
def FFmpegCommand.saturation (cmd : FFmpegCommand) (value : ℚ) : FFmpegCommand :=
  { cmd with video_filters := cmd.video_filters ++ [.eqSaturation value] }

/-- Model of `FFmpegCommand::color_enhance`. -/
def FFmpegCommand.color_enhance (cmd : FFmpegCommand) (contrast saturation : ℚ) :
    FFmpegCommand :=
  { cmd with video_filters := cmd.video_filters ++ [.eqCS contrast saturation] }

/-- Model of `FFmpegCommand::lut3d` (the path is rendered with `display()`,
not quoted). -/
def FFmpegCommand.lut3d (cmd : FFmpegCommand) (lut_file : String) : FFmpegCommand :=
  { cmd with video_filters := cmd.video_filters ++ [.lut3d lut_file] }

/-- Model of `FFmpegCommand::stabilize`. -/
def FFmpegCommand.stabilize (cmd : FFmpegCommand) : FFmpegCommand :=
  { cmd with video_filters := cmd.video_filters ++ [.deshake] }

/-- Model of `FFmpegCommand::auto_rotate`: the identity, since the engine's
autorotate is on by default. -/
def FFmpegCommand.auto_rotate (cmd : FFmpegCommand) : FFmpegCommand := cmd

/-- Model of `FFmpegCommand::rotate` (0 = 90 ccw, 1 = 90 cw, 2 = 180; any
other direction pushes nothing). -/
def FFmpegCommand.rotate (cmd : FFmpegCommand) (direction : ℕ) : FFmpegCommand :=
  if direction = 0 then { cmd with video_filters := cmd.video_filters ++ [.transpose 0] }
  else if direction = 1 then { cmd with video_filters := cmd.video_filters ++ [.transpose 1] }
  else if direction = 2 then { cmd with video_filters := cmd.video_filters ++ [.transpose180] }
  else cmd

/-- Model of `FFmpegCommand::scale`. -/
def FFmpegCommand.scale (cmd : FFmpegCommand) (width height : ℤ) : FFmpegCommand :=
  { cmd with video_filters := cmd.video_filters ++ [.scale width height] }

/-- Model of `FFmpegCommand::crop`. -/
def FFmpegCommand.crop (cmd : FFmpegCommand) (width height x y : ℕ) : FFmpegCommand :=
  { cmd with video_filters := cmd.video_filters ++ [.crop width height x y] }

/-- Model of `FFmpegCommand::denoise`. -/
def FFmpegCommand.denoise (cmd : FFmpegCommand) (strength : ℕ) : FFmpegCommand :=
  { cmd with video_filters := cmd.video_filters ++ [.nlmeans strength] }

/-- Model of `FFmpegCommand::sharpen`. -/
def FFmpegCommand.sharpen (cmd : FFmpegCommand) (strength : ℚ) : FFmpegCommand :=
  { cmd with video_filters := cmd.video_filters ++ [.unsharp strength] }

/-- Model of `FFmpegCommand::vibrance`. -/
def FFmpegCommand.vibrance (cmd : FFmpegCommand) (intensity : ℚ) : FFmpegCommand :=
  { cmd with video_filters := cmd.video_filters ++ [.vibrance intensity] }

/-- Model of `FFmpegCommand::curves`. -/
def FFmpegCommand.curves (cmd : FFmpegCommand) (curves_str : String) : FFmpegCommand :=
  { cmd with video_filters := cmd.video_filters ++ [.curves curves_str] }

/-- Model of `FFmpegCommand::color_balance`. -/
def FFmpegCommand.color_balance (cmd : FFmpegCommand)
    (shadows midtones highlights : ℚ × ℚ × ℚ) : FFmpegCommand :=
  { cmd with video_filters := cmd.video_filters ++
      [.colorbalance shadows.1 shadows.2.1 shadows.2.2 midtones.1 midtones.2.1 midtones.2.2
        highlights.1 highlights.2.1 highlights.2.2] }

/-- Model of `FFmpegCommand::hue_shift`. -/
def FFmpegCommand.hue_shift (cmd : FFmpegCommand) (degrees : ℚ) : FFmpegCommand :=
  { cmd with video_filters := cmd.video_filters ++ [.hue degrees] }

/-- Model of `FFmpegCommand::selective_color`. -/
def FFmpegCommand.selective_color (cmd : FFmpegCommand) (config : String) : FFmpegCommand :=
  { cmd with video_filters := cmd.video_filters ++ [.selectivecolor config] }

/-- Model of `FFmpegCommand::preserve_metadata`. -/
def FFmpegCommand.preserve_metadata (cmd : FFmpegCommand) : FFmpegCommand :=
  { cmd with metadata_args := cmd.metadata_args ++
      ["-map_metadata", "0", "-movflags", "use_metadata_tags"] }

/-- Model of `FFmpegCommand::custom_args`. -/
def FFmpegCommand.custom_args (cmd : FFmpegCommand) (args : List String) : FFmpegCommand :=
  { cmd with extra_args := cmd.extra_args ++ args }

/-- The `filter_complex` expression assembled by `FFmpegCommand::build`
(ffmpeg_wrapper.rs lines 314-329): the video chain wrapped in `[0:v]...[v]`,
`; ` when both tracks have filters, and the audio chain wrapped in
`[0:a]...[a]`. -/
def filterComplexStr (cmd : FFmpegCommand) : String :=
  (if cmd.video_filters.isEmpty then "" else
    "[0:v]" ++ String.intercalate "," (cmd.video_filters.map VideoFilter.render) ++ "[v]") ++
  (if ¬cmd.video_filters.isEmpty ∧ ¬cmd.audio_filters.isEmpty then "; " else "") ++
  (if cmd.audio_filters.isEmpty then "" else
    "[0:a]" ++ String.intercalate "," (cmd.audio_filters.map AudioFilter.render) ++ "[a]")

/-- The filter arguments of `FFmpegCommand::build` (ffmpeg_wrapper.rs lines
331-347): nothing when the expression is empty; otherwise `-filter_complex`,
the expression, and a `-map` per track — the bracketed label when the track
has filters, the optional raw stream (`0:v?` / `0:a?`) when it does not. -/
def buildFilterArgs (cmd : FFmpegCommand) : List String :=
  if filterComplexStr cmd = "" then []
  else
    ["-filter_complex", filterComplexStr cmd] ++
    (if ¬cmd.video_filters.isEmpty then ["-map", "[v]"] else ["-map", "0:v?"]) ++
    (if ¬cmd.audio_filters.isEmpty then ["-map", "[a]"] else ["-map", "0:a?"])

/-- Model of `FFmpegCommand::build` (ffmpeg_wrapper.rs lines 297-391): the
full argument vector, program name excluded, in the source's order. -/
def FFmpegCommand.build (cmd : FFmpegCommand) : List String :=
  (if cmd.overwrite then ["-y"] else []) ++
  (match cmd.hw_accel with
   | some hw => ["-hwaccel", hw]
   | none => []) ++
  ["-i", cmd.input] ++
  buildFilterArgs cmd ++
  (match cmd.video_codec with | some c => ["-c:v", c] | none => []) ++
  (match cmd.audio_codec with | some c => ["-c:a", c] | none => []) ++
  (match cmd.quality with | some crf => ["-crf", toString crf] | none => []) ++
  (match cmd.bitrate with | some b => ["-b:v", toString b ++ "M"] | none => []) ++
  (match cmd.preset with | some p => ["-preset", p] | none => []) ++
  (match cmd.threads with | some t => ["-threads", toString t] | none => []) ++
  cmd.metadata_args ++ cmd.extra_args ++ [cmd.output]

/-- Model of the `ColorProfile` enum of lib.rs. -/
inductive ColorProfile where
  | Standard
  | DLog
  | SLog
  | CLog
  | VLog
  | FLog
deriving DecidableEq, Repr

/-- Model of the `VideoInfo` struct (ffmpeg_wrapper.rs lines 578-586). -/
structure VideoInfo where
  duration : ℚ
  width : ℕ
  height : ℕ
  fps : ℚ
  rotation : ℤ
  has_audio : Bool
deriving DecidableEq, Repr

/-- Digits of a numeral read left to right. -/
def digitsToNat (l : List Char) : ℕ :=
  l.foldl (fun acc c => acc * 10 + (c.toNat - 48)) 0

/-- The character-level part of Rust `str::parse` for `f32`, restricted to
finite literals: optional sign, digits with an optional fraction part (at
least one digit in the mantissa), an optional exponent with at least one
digit, the whole string consumed.  Returns the sign, the integer part, the
fraction digits' value and count, and the signed exponent.  The non-finite
literals `inf`/`infinity`/`nan` (which Rust accepts) have no rational value
and are outside the model; no claim's input involves them. -/
def parseF32Syn (s : String) : Option (ℤ × ℕ × ℕ × ℕ × ℤ) :=
  let l := s.data
  let sg : ℤ × List Char :=
    match l with
    | '+' :: r => (1, r)
    | '-' :: r => (-1, r)
    | _ => (1, l)
  let ipSplit := sg.2.span Char.isDigit
  let hasDot : Bool :=
    match ipSplit.2 with
    | '.' :: _ => true
    | _ => false
  let fpSplit : List Char × List Char :=
    match ipSplit.2 with
    | '.' :: r => r.span Char.isDigit
    | _ => ([], ipSplit.2)
  let rest : List Char := if hasDot then fpSplit.2 else ipSplit.2
  if ipSplit.1.isEmpty ∧ fpSplit.1.isEmpty then none
  else
    match rest with
    | [] => some (sg.1, digitsToNat ipSplit.1, digitsToNat fpSplit.1, fpSplit.1.length, 0)
    | e :: r =>
        if e = 'e' ∨ e = 'E' then
          let esg : ℤ × List Char :=
            match r with
            | '+' :: rr => (1, rr)
            | '-' :: rr => (-1, rr)
            | _ => (1, r)
          let edSplit := esg.2.span Char.isDigit
          if edSplit.1.isEmpty ∨ ¬edSplit.2.isEmpty then none
          else some (sg.1, digitsToNat ipSplit.1, digitsToNat fpSplit.1, fpSplit.1.length,
            esg.1 * (digitsToNat edSplit.1 : ℤ))
        else none

/-- Model of Rust `str::parse` for `f32` on finite literals: the parsed
parts valued as an exact rational (the rounding to `f32` is not modelled;
every claim compares parsed values symbolically). -/
def parseF32? (s : String) : Option ℚ :=
  (parseF32Syn s).map fun t =>
    (t.1 : ℚ) * ((t.2.1 : ℚ) + (t.2.2.1 : ℚ) / 10 ^ t.2.2.2.1) * 10 ^ t.2.2.2.2

/-- Model of Rust `str::parse` for `i32`: optional sign, one or more digits,
the whole string consumed, value within the `i32` range. -/
def parseI32? (s : String) : Option ℤ :=
  let l := s.data
  let sg : ℤ × List Char :=
    match l with
    | '+' :: r => (1, r)
    | '-' :: r => (-1, r)
    | _ => (1, l)
  if sg.2.isEmpty ∨ ¬(sg.2.all Char.isDigit) then none
  else
    let v : ℤ := sg.1 * (digitsToNat sg.2 : ℤ)
    if v < -(2 ^ 31) ∨ 2 ^ 31 ≤ v then none else some v

/-- Model of Rust `str::split` with a character separator, on the character
level: the (always nonempty) list of parts between occurrences of the
separator. -/
def splitOnCharCh (sep : Char) : List Char → List (List Char)
  | [] => [[]]
  | c :: rest =>
      if c = sep then [] :: splitOnCharCh sep rest
      else
        match splitOnCharCh sep rest with
        | [] => [[c]]
        | h :: t => (c :: h) :: t

/-- Model of Rust `str::split` with a character separator. -/
def splitOnChar (sep : Char) (s : String) : List String :=
  (splitOnCharCh sep s.data).map String.mk

/-- Model of Rust `str::split_once` on the character level. -/
def splitOnceCh (sep : Char) : List Char → Option (List Char × List Char)
  | [] => none
  | c :: rest =>
      if c = sep then some ([], rest)
      else (splitOnceCh sep rest).map fun p => (c :: p.1, p.2)

/-- Model of Rust `str::split_once`: the text before and after the first
occurrence of the separator, `none` when it is absent. -/
def splitOnce (sep : Char) (s : String) : Option (String × String) :=
  (splitOnceCh sep s.data).map fun p => (String.mk p.1, String.mk p.2)

/-- The scale-string handling of `VideoProcessor::process`
(video_processor.rs lines 357-370): try `split_once('x')` first, else
`split_once(':')`; the width must parse as `i32` or the option is dropped,
the height falls back to `-1`. -/
def scaleFilterOfStr (s : String) : Option (ℤ × ℤ) :=
  match splitOnce 'x' s with
  | some (width_str, height_str) =>
      (parseI32? width_str).map fun w => (w, (parseI32? height_str).getD (-1))
  | none =>
      match splitOnce ':' s with
      | some (width_str, height_str) =>
          (parseI32? width_str).map fun w => (w, (parseI32? height_str).getD (-1))
      | none => none

/-- Model of the `VideoProcessor` struct (video_processor.rs lines 10-33). -/
structure VideoProcessor where
  input_path : String
  output_path : String
  speed_multiplier : ℚ
  codec : String
  bitrate : Option ℕ
  quality : ℕ
  contrast : ℚ
  saturation : ℚ
  profile : ColorProfile
  lut_file : Option String
  hw_accel : Bool
  threads : Option ℕ
  stabilize : Bool
  auto_rotate : Bool
  denoise : Option ℕ
  sharpen : Option ℚ
  scale : Option String
  vibrance : Option ℚ
  curves : Option String
  hue_shift : Option ℚ
  color_balance : Option (ℚ × ℚ × ℚ × ℚ × ℚ × ℚ × ℚ × ℚ × ℚ)
  selective_color : Option String
deriving Repr

namespace VideoProcessor

/-- Model of `VideoProcessor::new`. -/
def new (input output : String) : VideoProcessor :=
  { input_path := input
    output_path := output
    speed_multiplier := 1
    codec := "libx264"
    bitrate := none
    quality := 23
    contrast := 1
    saturation := 1
    profile := .Standard
    lut_file := none
    hw_accel := false
    threads := none
    stabilize := false
    auto_rotate := true
    denoise := none
    sharpen := none
    scale := none
    vibrance := none
    curves := none
    hue_shift := none
    color_balance := none
    selective_color := none }

/-- Model of `VideoProcessor::speed`. -/
def speed (p : VideoProcessor) (multiplier : ℚ) : VideoProcessor :=
  { p with speed_multiplier := multiplier }

/-- Model of `VideoProcessor::codec` with its alias mapping. -/
def codecSet (p : VideoProcessor) (codec : String) : VideoProcessor :=
  { p with codec :=
      if codec = "h264" then "libx264"
      else if codec = "h265" ∨ codec = "hevc" then "libx265"
      else if codec = "vp9" then "libvpx-vp9"
      else if codec = "av1" then "libaom-av1"
      else if codec = "prores" then "prores_ks"
      else codec }

/-- Model of `VideoProcessor::bitrate`. -/
def bitrateSet (p : VideoProcessor) (mbps : ℕ) : VideoProcessor :=
  { p with bitrate := some mbps }

/-- Model of `VideoProcessor::quality`. -/
def qualitySet (p : VideoProcessor) (crf : ℕ) : VideoProcessor :=
  { p with quality := crf }

/-- Model of `VideoProcessor::contrast`. -/
def contrastSet (p : VideoProcessor) (value : ℚ) : VideoProcessor :=
  { p with contrast := value }

/-- Model of `VideoProcessor::saturation`. -/
def saturationSet (p : VideoProcessor) (value : ℚ) : VideoProcessor :=
  { p with saturation := value }

/-- Model of `VideoProcessor::profile`. -/
def profileSet (p : VideoProcessor) (profile : ColorProfile) : VideoProcessor :=
  { p with profile := profile }

/-- Model of `VideoProcessor::lut`. -/
def lut (p : VideoProcessor) (lut_file : String) : VideoProcessor :=
  { p with lut_file := some lut_file }

/-- Model of `VideoProcessor::hardware_accel`. -/
def hardware_accel (p : VideoProcessor) (enabled : Bool) : VideoProcessor :=
  { p with hw_accel := enabled }

/-- Model of `VideoProcessor::threads`. -/
def threadsSet (p : VideoProcessor) (count : ℕ) : VideoProcessor :=
  { p with threads := some count }

/-- Model of `VideoProcessor::stabilize`. -/
def stabilizeSet (p : VideoProcessor) (enabled : Bool) : VideoProcessor :=
  { p with stabilize := enabled }

/-- Model of `VideoProcessor::auto_rotate`. -/
def auto_rotateSet (p : VideoProcessor) (enabled : Bool) : VideoProcessor :=
  { p with auto_rotate := enabled }

/-- Model of `VideoProcessor::denoise`. -/
def denoiseSet (p : VideoProcessor) (strength : ℕ) : VideoProcessor :=
  { p with denoise := some strength }

/-- Model of `VideoProcessor::sharpen`. -/
def sharpenSet (p : VideoProcessor) (strength : ℚ) : VideoProcessor :=
  { p with sharpen := some strength }

/-- Model of `VideoProcessor::scale`. -/
def scaleSet (p : VideoProcessor) (scale_str : String) : VideoProcessor :=
  { p with scale := some scale_str }

/-- Model of `VideoProcessor::vibrance`. -/
def vibranceSet (p : VideoProcessor) (intensity : ℚ) : VideoProcessor :=
  { p with vibrance := some intensity }

/-- Model of `VideoProcessor::curves`. -/
def curvesSet (p : VideoProcessor) (curves : String) : VideoProcessor :=
  { p with curves := some curves }

/-- Model of `VideoProcessor::hue_shift`. -/
def hue_shiftSet (p : VideoProcessor) (degrees : ℚ) : VideoProcessor :=
  { p with hue_shift := some degrees }

/-- Model of `VideoProcessor::color_balance_str` (video_processor.rs lines
161-184): split on commas into exactly three parts, split each on colons and
keep the components that parse as `f32`; only when each part has exactly
three numeric components is the nine-tuple stored, otherwise the processor
is returned unchanged. -/
def color_balance_str (p : VideoProcessor) (balance_str : String) : VideoProcessor :=
  let parts := splitOnChar ',' balance_str
  if parts.length = 3 then
    let shadows := (splitOnChar ':' (parts.getD 0 "")).filterMap parseF32?
    let midtones := (splitOnChar ':' (parts.getD 1 "")).filterMap parseF32?
    let highlights := (splitOnChar ':' (parts.getD 2 "")).filterMap parseF32?
    if shadows.length = 3 ∧ midtones.length = 3 ∧ highlights.length = 3 then
      match shadows, midtones, highlights with
      | [a, b, c], [d, e, f], [g, h, i] =>
          { p with color_balance := some (a, b, c, d, e, f, g, h, i) }
      | _, _, _ => p
    else p
  else p

/-- Model of `VideoProcessor::selective_color`. -/
def selective_colorSet (p : VideoProcessor) (config : String) : VideoProcessor :=
  { p with selective_color := some config }

end VideoProcessor

/-- Model of `VideoProcessor::get_profile_lut` (video_processor.rs lines
192-222); `fs` stands for the filesystem's `Path::exists`. -/
def getProfileLut (fs : String → Bool) : ColorProfile → Option String
  | .DLog =>
      if fs "luts/dji_dlog_to_rec709.cube" then some "luts/dji_dlog_to_rec709.cube" else none
  | .SLog =>
      if fs "luts/sony_slog_to_rec709.cube" then some "luts/sony_slog_to_rec709.cube" else none
  | .CLog =>
      if fs "luts/canon_clog_to_rec709.cube" then some "luts/canon_clog_to_rec709.cube"
      else none
  | _ => none

/-- The LUT step of `VideoProcessor::process` (video_processor.rs lines
283-291): an explicit LUT file wins, else the profile LUT if its file
exists. -/
def applyLut (fs : String → Bool) (p : VideoProcessor) (cmd : FFmpegCommand) : FFmpegCommand :=
  match p.lut_file with
  | some lutf => cmd.lut3d lutf
  | none =>
      match getProfileLut fs p.profile with
      | some l => cmd.lut3d l
      | none => cmd

/-- The contrast/saturation step of `process` (lines 294-296). -/
def applyColorEnhance (p : VideoProcessor) (cmd : FFmpegCommand) : FFmpegCommand :=
  if p.contrast ≠ 1 ∨ p.saturation ≠ 1 then cmd.color_enhance p.contrast p.saturation else cmd

/-- The stabilization step of `process` (lines 299-302). -/
def applyStabilize (p : VideoProcessor) (cmd : FFmpegCommand) : FFmpegCommand :=
  if p.stabilize then cmd.stabilize else cmd

/-- The rotation step of `process` (lines 305-315): a no-op under
auto-rotate, else manual compensation from the probed rotation metadata. -/
def applyRotation (p : VideoProcessor) (info : VideoInfo) (cmd : FFmpegCommand) :
    FFmpegCommand :=
  if p.auto_rotate then cmd.auto_rotate
  else if info.rotation ≠ 0 then
    if info.rotation = 90 then cmd.rotate 1
    else if info.rotation = -90 ∨ info.rotation = 270 then cmd.rotate 0
    else if info.rotation = 180 then cmd.rotate 2
    else cmd
  else cmd

/-- The denoise step of `process` (lines 318-320). -/
def applyDenoise (p : VideoProcessor) (cmd : FFmpegCommand) : FFmpegCommand :=
  match p.denoise with
  | some strength => cmd.denoise strength
  | none => cmd

/-- The sharpen step of `process` (lines 323-325). -/
def applySharpen (p : VideoProcessor) (cmd : FFmpegCommand) : FFmpegCommand :=
  match p.sharpen with
  | some strength => cmd.sharpen strength
  | none => cmd

/-- The vibrance step of `process` (lines 328-330). -/
def applyVibrance (p : VideoProcessor) (cmd : FFmpegCommand) : FFmpegCommand :=
  match p.vibrance with
  | some v => cmd.vibrance v
  | none => cmd

/-- The curves step of `process` (lines 333-335). -/
def applyCurves (p : VideoProcessor) (cmd : FFmpegCommand) : FFmpegCommand :=
  match p.curves with
  | some cs => cmd.curves cs
  | none => cmd

/-- The hue-shift step of `process` (lines 338-340). -/
def applyHueShift (p : VideoProcessor) (cmd : FFmpegCommand) : FFmpegCommand :=
  match p.hue_shift with
  | some deg => cmd.hue_shift deg
  | none => cmd

/-- The color-balance step of `process` (lines 343-349). -/
def applyColorBalance (p : VideoProcessor) (cmd : FFmpegCommand) : FFmpegCommand :=
  match p.color_balance with
  | some (a, b, c, d, e, f, g, h, i) => cmd.color_balance (a, b, c) (d, e, f) (g, h, i)
  | none => cmd

/-- The selective-color step of `process` (lines 352-354). -/
def applySelectiveColor (p : VideoProcessor) (cmd : FFmpegCommand) : FFmpegCommand :=
  match p.selective_color with
  | some sel => cmd.selective_color sel
  | none => cmd

/-- The scale step of `process` (lines 357-370). -/
def applyScale (p : VideoProcessor) (cmd : FFmpegCommand) : FFmpegCommand :=
  match p.scale with
  | some str =>
      match scaleFilterOfStr str with
      | some (w, h) => cmd.scale w h
      | none => cmd
  | none => cmd

/-- The settings portion of the command construction of
`VideoProcessor::process` (video_processor.rs lines 244-275): codec,
quality, overwrite, metadata, bitrate, threads and the hardware-acceleration
hint; `hwMethod` stands for the target-OS method (`vaapi` on Linux). -/
def buildPrefix (hwMethod : String) (p : VideoProcessor) : FFmpegCommand :=
  let cmd := ((((FFmpegCommand.new p.input_path p.output_path).video_codecSet
    p.codec).qualitySet p.quality).overwriteSet).preserve_metadata
  let cmd := match p.bitrate with | some b => cmd.bitrateSet b | none => cmd
  let cmd := match p.threads with | some t => cmd.threadsSet t | none => cmd
  if p.hw_accel then cmd.hardware_accel hwMethod else cmd

/-- The filter steps of `VideoProcessor::process` after the fixed settings,
in the source's order; `none` exactly when the `speed` call diverges. -/
def VideoProcessor.buildCommand (fs : String → Bool) (hwMethod : String)
    (p : VideoProcessor) (info : VideoInfo) : Option FFmpegCommand :=
  match (if p.speed_multiplier ≠ 1 then
      (buildPrefix hwMethod p).speed p.speed_multiplier info.has_audio
    else some (buildPrefix hwMethod p)) with
  | none => none
  | some cmd =>
      some (applyScale p (applySelectiveColor p (applyColorBalance p (applyHueShift p
        (applyCurves p (applyVibrance p (applySharpen p (applyDenoise p
        (applyRotation p info (applyStabilize p (applyColorEnhance p
        (applyLut fs p cmd))))))))))))

/-- The speed segment of the fixed order (spec section 4.1): one time-remap
stage for a non-unit multiplier. -/
def speedSeg (p : VideoProcessor) : List VideoFilter :=
  if p.speed_multiplier ≠ 1 then [.setpts (1 / p.speed_multiplier)] else []

/-- The LUT segment of the fixed order. -/
def lutSeg (fs : String → Bool) (p : VideoProcessor) : List VideoFilter :=
  match p.lut_file with
  | some l => [.lut3d l]
  | none =>
      match getProfileLut fs p.profile with
      | some l => [.lut3d l]
      | none => []

/-- The contrast/saturation segment of the fixed order. -/
def eqSeg (p : VideoProcessor) : List VideoFilter :=
  if p.contrast ≠ 1 ∨ p.saturation ≠ 1 then [.eqCS p.contrast p.saturation] else []

/-- The stabilization segment of the fixed order. -/
def stabSeg (p : VideoProcessor) : List VideoFilter :=
  if p.stabilize then [.deshake] else []

/-- The rotation segment of the fixed order. -/
def rotSeg (p : VideoProcessor) (info : VideoInfo) : List VideoFilter :=
  if p.auto_rotate then []
  else if info.rotation ≠ 0 then
    if info.rotation = 90 then [.transpose 1]
    else if info.rotation = -90 ∨ info.rotation = 270 then [.transpose 0]
    else if info.rotation = 180 then [.transpose180]
    else []
  else []

/-- The denoise segment of the fixed order. -/
def denoiseSeg (p : VideoProcessor) : List VideoFilter :=
  match p.denoise with
  | some strength => [.nlmeans strength]
  | none => []

/-- The sharpen segment of the fixed order. -/
def sharpenSeg (p : VideoProcessor) : List VideoFilter :=
  match p.sharpen with
  | some strength => [.unsharp strength]
  | none => []

/-- The vibrance segment of the fixed order. -/
def vibranceSeg (p : VideoProcessor) : List VideoFilter :=
  match p.vibrance with
  | some v => [.vibrance v]
  | none => []

/-- The curves segment of the fixed order. -/
def curvesSeg (p : VideoProcessor) : List VideoFilter :=
  match p.curves with
  | some cs => [.curves cs]
  | none => []

/-- The hue-shift segment of the fixed order. -/
def hueSeg (p : VideoProcessor) : List VideoFilter :=
  match p.hue_shift with
  | some deg => [.hue deg]
  | none => []

/-- The color-balance segment of the fixed order. -/
def cbSeg (p : VideoProcessor) : List VideoFilter :=
  match p.color_balance with
  | some (a, b, c, d, e, f, g, h, i) => [.colorbalance a b c d e f g h i]
  | none => []

/-- The selective-color segment of the fixed order. -/
def scSeg (p : VideoProcessor) : List VideoFilter :=
  match p.selective_color with
  | some sel => [.selectivecolor sel]
  | none => []

/-- The scale segment of the fixed order. -/
def scaleSeg (p : VideoProcessor) : List VideoFilter :=
  match p.scale with
  | some str =>
      match scaleFilterOfStr str with
      | some (w, h) => [.scale w h]
      | none => []
  | none => []

/-- The spec's fixed application order (section 4.1), written as the
concatenation of the thirteen segments: speed remap, LUT,
contrast/saturation, stabilization, rotation, denoise, sharpen, vibrance,
curves, hue shift, color balance, selective color, scale. -/
def orderedFilters (fs : String → Bool) (p : VideoProcessor) (info : VideoInfo) :
    List VideoFilter :=
  speedSeg p ++ lutSeg fs p ++ eqSeg p ++ stabSeg p ++ rotSeg p info ++ denoiseSeg p ++
  sharpenSeg p ++ vibranceSeg p ++ curvesSeg p ++ hueSeg p ++ cbSeg p ++ scSeg p ++
  scaleSeg p

/-- Whether a video filter entry is a color-balance stage. -/
def VideoFilter.isColorBalance : VideoFilter → Bool
  | .colorbalance .. => true
  | _ => false

/-- Whether a video filter entry is a scale stage. -/
def VideoFilter.isScale : VideoFilter → Bool
  | .scale _ _ => true
  | _ => false

/-- The halving loop exits at once when its guard is already false. -/
theorem chainDownF_of_le (fuel : ℕ) (c : ℚ) (h : c ≤ 2) :
    chainDownF fuel c = some ([], c) := by
  cases fuel <;>
    · simp only [chainDownF]
      rw [if_neg (not_lt.mpr h)]

/-- The doubling loop exits at once when its guard is already false. -/
theorem chainUp_of_ge (fuel : ℕ) (c : ℚ) (h : 1/2 ≤ c) :
    chainUp fuel c = some ([], c) := by
  cases fuel <;>
    · simp only [chainUp]
      rw [if_neg (not_lt.mpr h)]

/-- Shape of a completed halving loop: it pushed some number of `atempo=2.0`
entries, halving each time, and stopped with the guard false; started above 2
it stops in the half-open interval `(1, 2]`. -/
theorem chainDownF_spec (fuel : ℕ) (c : ℚ) (l : List AudioFilter) (r : ℚ)
    (h : chainDownF fuel c = some (l, r)) :
    ∃ k, l = List.replicate k .atempo2 ∧ c = r * 2 ^ k ∧ r ≤ 2 ∧
      (2 < c → 1 < r) ∧ (c ≤ 2 → k = 0 ∧ r = c) := by
  induction fuel generalizing c l r with
  | zero =>
      simp only [chainDownF] at h
      split_ifs at h with hc
      cases h
      exact ⟨0, rfl, by ring, not_lt.mp hc, fun h2 => absurd h2 hc, fun _ => ⟨rfl, rfl⟩⟩
  | succ fuel ih =>
      simp only [chainDownF] at h
      split_ifs at h with hc
      · rw [Option.map_eq_some'] at h
        obtain ⟨p, hrec, heq⟩ := h
        have hleq : l = .atempo2 :: p.1 := (congrArg Prod.fst heq).symm
        have hreq : r = p.2 := (congrArg Prod.snd heq).symm
        subst hleq
        subst hreq
        obtain ⟨k, hl, hcr, hr2, hgt, hle⟩ := ih _ p.1 p.2 hrec
        refine ⟨k + 1, ?_, ?_, hr2, fun _ => ?_, fun h2 => absurd h2 (not_le.mpr hc)⟩
        · rw [hl]
          rfl
        · rw [pow_succ]
          have hsplit : c = c / 2 * 2 := by ring
          rw [hsplit, hcr]
          ring
        · by_cases hc2 : 2 < c / 2
          · exact hgt hc2
          · obtain ⟨_, hr⟩ := hle (not_lt.mp hc2)
            rw [hr]
            linarith
      · cases h
        exact ⟨0, rfl, by ring, not_lt.mp hc, fun h2 => absurd h2 hc, fun _ => ⟨rfl, rfl⟩⟩

/-- Shape of a completed doubling loop: it pushed some number of `atempo=0.5`
entries, doubling each time, and stopped with the guard false; started below
0.5 it stops in the half-open interval `[0.5, 1)`. -/
theorem chainUp_spec (fuel : ℕ) (c : ℚ) (l : List AudioFilter) (r : ℚ)
    (h : chainUp fuel c = some (l, r)) :
    ∃ k, l = List.replicate k .atempoHalf ∧ r = c * 2 ^ k ∧ 1/2 ≤ r ∧
      (c < 1/2 → r < 1) ∧ (1/2 ≤ c → k = 0 ∧ r = c) := by
  induction fuel generalizing c l r with
  | zero =>
      simp only [chainUp] at h
      split_ifs at h with hc
      cases h
      exact ⟨0, rfl, by ring, not_lt.mp hc, fun h2 => absurd h2 hc, fun _ => ⟨rfl, rfl⟩⟩
  | succ fuel ih =>
      simp only [chainUp] at h
      split_ifs at h with hc
      · rw [Option.map_eq_some'] at h
        obtain ⟨p, hrec, heq⟩ := h
        have hleq : l = .atempoHalf :: p.1 := (congrArg Prod.fst heq).symm
        have hreq : r = p.2 := (congrArg Prod.snd heq).symm
        subst hleq
        subst hreq
        obtain ⟨k, hl, hcr, hhalf, hlt, hge⟩ := ih _ p.1 p.2 hrec
        refine ⟨k + 1, ?_, ?_, hhalf, fun _ => ?_, fun h2 => absurd h2 (not_le.mpr hc)⟩
        · rw [hl]
          rfl
        · rw [hcr, pow_succ]
          ring
        · by_cases hc2 : c * 2 < 1/2
          · exact hlt hc2
          · obtain ⟨_, hr⟩ := hge (not_lt.mp hc2)
            rw [hr]
            linarith
      · cases h
        exact ⟨0, rfl, by ring, not_lt.mp hc, fun h2 => absurd h2 hc, fun _ => ⟨rfl, rfl⟩⟩

/-- With a nonpositive start the doubling loop's guard stays true forever:
every fuel is exhausted, exactly as the source loop never exits. -/
theorem chainUp_none_of_nonpos (fuel : ℕ) (c : ℚ) (h : c ≤ 0) :
    chainUp fuel c = none := by
  induction fuel generalizing c with
  | zero =>
      simp only [chainUp]
      rw [if_pos (lt_of_le_of_lt h (by norm_num))]
  | succ fuel ih =>
      simp only [chainUp]
      rw [if_pos (lt_of_le_of_lt h (by norm_num)), ih (c * 2) (by linarith)]
      rfl

/-- Enough fuel completes the halving loop. -/
theorem chainDownF_isSome (fuel : ℕ) (c : ℚ) (h : c ≤ 2 * 2 ^ fuel) :
    ∃ p, chainDownF fuel c = some p := by
  induction fuel generalizing c with
  | zero =>
      refine ⟨([], c), chainDownF_of_le 0 c ?_⟩
      simpa using h
  | succ fuel ih =>
      by_cases hc : 2 < c
      · have hh : c / 2 ≤ 2 * 2 ^ fuel := by
          rw [pow_succ] at h
          linarith
        obtain ⟨p, hp⟩ := ih _ hh
        refine ⟨(.atempo2 :: p.1, p.2), ?_⟩
        simp only [chainDownF]
        rw [if_pos hc, hp]
        rfl
      · refine ⟨([], c), ?_⟩
        simp only [chainDownF]
        rw [if_neg hc]

/-- Enough fuel completes the doubling loop, provided the start is positive. -/
theorem chainUp_isSome (fuel : ℕ) (c : ℚ) (hpos : 0 < c) (h : 1/2 ≤ c * 2 ^ fuel) :
    ∃ p, chainUp fuel c = some p := by
  induction fuel generalizing c with
  | zero =>
      refine ⟨([], c), chainUp_of_ge 0 c ?_⟩
      simpa using h
  | succ fuel ih =>
      by_cases hc : c < 1/2
      · have hh : 1/2 ≤ c * 2 * 2 ^ fuel := by
          rw [pow_succ] at h
          linarith
        obtain ⟨p, hp⟩ := ih (c * 2) (by linarith) hh
        refine ⟨(.atempoHalf :: p.1, p.2), ?_⟩
        simp only [chainUp]
        rw [if_pos hc, hp]
        rfl
      · refine ⟨([], c), ?_⟩
        simp only [chainUp]
        rw [if_neg hc]

/-- A positive rational is at most its numerator. -/
theorem rat_le_num (q : ℚ) (h : 0 < q) : q ≤ (q.num : ℚ) := by
  conv_lhs => rw [← Rat.num_div_den q]
  have hden : (1:ℚ) ≤ (q.den : ℚ) := by
    exact_mod_cast q.pos
  have hnum : (0:ℚ) < (q.num : ℚ) := by
    exact_mod_cast Rat.num_pos.mpr h
  rw [div_le_iff₀ (by linarith)]
  nlinarith

/-- The fuel bound covers the halving loop: `m ≤ 2 * 2 ^ speedChainFuel m`. -/
theorem speedChainFuel_down (m : ℚ) : m ≤ 2 * 2 ^ speedChainFuel m := by
  rcases le_or_lt m 0 with h | h
  · have : (0:ℚ) < 2 * 2 ^ speedChainFuel m := by positivity
    linarith
  · have h1 : m ≤ (m.num : ℚ) := rat_le_num m h
    have h2 : (m.num : ℚ) = (m.num.toNat : ℚ) := by
      have := Rat.num_pos.mpr h
      exact_mod_cast (Int.toNat_of_nonneg this.le).symm
    have h3 : (m.num.toNat : ℚ) ≤ 2 ^ m.num.toNat := by
      exact_mod_cast (Nat.lt_two_pow m.num.toNat).le
    have h4 : (2:ℚ) ^ m.num.toNat ≤ 2 ^ speedChainFuel m := by
      apply pow_le_pow_right₀ (by norm_num)
      exact Nat.le_add_right _ _
    have h5 : (0:ℚ) < 2 ^ speedChainFuel m := by positivity
    calc m ≤ (m.num.toNat : ℚ) := h2 ▸ h1
      _ ≤ 2 ^ speedChainFuel m := h3.trans h4
      _ ≤ 2 * 2 ^ speedChainFuel m := by linarith

/-- The fuel bound covers the doubling loop for a positive start:
`1/2 ≤ m * 2 ^ speedChainFuel m`. -/
theorem speedChainFuel_up (m : ℚ) (h : 0 < m) : 1/2 ≤ m * 2 ^ speedChainFuel m := by
  have hdpos0 : ((m.den : ℚ)) ≠ 0 := by
    have : (0:ℚ) < (m.den : ℚ) := by exact_mod_cast m.pos
    linarith
  have hden : (m.den : ℚ) * m = (m.num : ℚ) := by
    have hnd := Rat.num_div_den m
    rw [div_eq_iff hdpos0] at hnd
    linear_combination -hnd
  have hnum : (1:ℚ) ≤ (m.num : ℚ) := by
    exact_mod_cast Rat.num_pos.mpr h
  have hd2 : (m.den : ℚ) ≤ 2 ^ m.den := by
    exact_mod_cast (Nat.lt_two_pow m.den).le
  have hfuel : (2:ℚ) ^ m.den ≤ 2 ^ speedChainFuel m := by
    apply pow_le_pow_right₀ (by norm_num)
    exact Nat.le_add_left _ _
  have hdpos : (0:ℚ) < (m.den : ℚ) := by exact_mod_cast m.pos
  have key : 1 ≤ m * 2 ^ m.den := by
    have heq : (m.den : ℚ) * (m * 2 ^ m.den) = (m.num : ℚ) * 2 ^ m.den := by
      rw [← mul_assoc, hden]
    nlinarith [pow_pos (by norm_num : (0:ℚ) < 2) m.den]
  have hmono : m * 2 ^ m.den ≤ m * 2 ^ speedChainFuel m :=
    mul_le_mul_of_nonneg_left hfuel h.le
  linarith

/-- Characterization of the audio stages for a multiplier above 2: some
`atempo=2.0` entries followed by one residual `atempo={:.4}` entry whose
factor lies in `(1, 2]`, the factors multiplying back to the multiplier. -/
theorem speedAudio_high (m : ℚ) (hm : 2 < m) :
    ∃ k r, speedAudio m = some (List.replicate k .atempo2 ++ [.atempo r]) ∧
      m = r * 2 ^ k ∧ 1 < r ∧ r ≤ 2 ∧ 1 ≤ k := by
  have hcond : ¬(1/2 ≤ m ∧ m ≤ 2) := by
    rintro ⟨-, h2⟩
    linarith
  obtain ⟨⟨l₁, c₁⟩, hdown⟩ := chainDownF_isSome (speedChainFuel m) m (speedChainFuel_down m)
  obtain ⟨k, hl, hcr, hr2, hgt, -⟩ := chainDownF_spec _ _ _ _ hdown
  have h1r : 1 < c₁ := hgt hm
  have hup : chainUp (speedChainFuel m) c₁ = some ([], c₁) := chainUp_of_ge _ _ (by linarith)
  refine ⟨k, c₁, ?_, hcr, h1r, hr2, ?_⟩
  · simp only [speedAudio, if_neg hcond, atempoChain, hdown, hup]
    rw [if_pos h1r, if_neg (not_lt.mpr h1r.le)]
    simp [hl]
  · rcases Nat.eq_zero_or_pos k with hk | hk
    · subst hk
      simp only [pow_zero, mul_one] at hcr
      rw [hcr] at hm
      linarith
    · exact hk

/-- Characterization of the audio stages for a positive multiplier below 0.5:
some `atempo=0.5` entries followed by one residual `atempo={:.4}` entry whose
factor lies in `[0.5, 1)`, the factors multiplying back to the multiplier. -/
theorem speedAudio_low (m : ℚ) (h0 : 0 < m) (hm : m < 1/2) :
    ∃ k r, speedAudio m = some (List.replicate k .atempoHalf ++ [.atempo r]) ∧
      r = m * 2 ^ k ∧ 1/2 ≤ r ∧ r < 1 ∧ 1 ≤ k := by
  have hcond : ¬(1/2 ≤ m ∧ m ≤ 2) := by
    rintro ⟨h1, -⟩
    linarith
  have hdown : chainDownF (speedChainFuel m) m = some ([], m) :=
    chainDownF_of_le _ _ (by linarith)
  obtain ⟨⟨l₂, c₂⟩, hup⟩ := chainUp_isSome (speedChainFuel m) m h0 (speedChainFuel_up m h0)
  obtain ⟨k, hl, hcr, hhalf, hlt, -⟩ := chainUp_spec _ _ _ _ hup
  have hr1 : c₂ < 1 := hlt hm
  refine ⟨k, c₂, ?_, hcr, hhalf, hr1, ?_⟩
  · simp only [speedAudio, if_neg hcond, atempoChain, hdown, hup]
    rw [if_neg (not_lt.mpr (by linarith : m ≤ 1)), if_pos hr1]
    simp [hl]
  · rcases Nat.eq_zero_or_pos k with hk | hk
    · subst hk
      simp only [pow_zero, mul_one] at hcr
      rw [hcr] at hhalf
      linarith
    · exact hk

/-- An in-range multiplier produces the single `atempo={:.4}` stage. -/
theorem speedAudio_in_range (m : ℚ) (h1 : 1/2 ≤ m) (h2 : m ≤ 2) :
    speedAudio m = some [.atempo m] := by
  have hc : (1/2 ≤ m ∧ m ≤ 2) := ⟨h1, h2⟩
  simp only [speedAudio, if_pos hc]

/-- For a nonpositive multiplier no fuel completes the chain: the model of
the doubling loop never exiting. -/
theorem speedAudio_none_of_nonpos (m : ℚ) (h : m ≤ 0) : speedAudio m = none := by
  have hcond : ¬(1/2 ≤ m ∧ m ≤ 2) := by
    rintro ⟨h1, -⟩
    linarith
  have hdown : chainDownF (speedChainFuel m) m = some ([], m) :=
    chainDownF_of_le _ _ (by linarith)
  simp only [speedAudio, if_neg hcond, atempoChain, hdown,
    chainUp_none_of_nonpos (speedChainFuel m) m h]

example : chainDownF 5 4 = some ([.atempo2], 2) := by norm_num [chainDownF, chainUp, speedAudio, atempoChain, speedChainFuel]
example : chainUp 5 (1/4) = some ([.atempoHalf], 1/2) := by norm_num [chainDownF, chainUp, speedAudio, atempoChain, speedChainFuel]
example : speedAudio 4 = some [.atempo2, .atempo 2] := by norm_num [chainDownF, chainUp, speedAudio, atempoChain, speedChainFuel]
example : speedAudio 3 = some [.atempo2, .atempo (3/2)] := by norm_num [chainDownF, chainUp, speedAudio, atempoChain, speedChainFuel]
example : speedAudio (1/4) = some [.atempoHalf, .atempo (1/2)] := by norm_num [chainDownF, chainUp, speedAudio, atempoChain, speedChainFuel]
example : speedAudio (3/2) = some [.atempo (3/2)] := by norm_num [chainDownF, chainUp, speedAudio, atempoChain, speedChainFuel]


/-- Unchanged command for multiplier 1 (the source's `multiplier != 1.0`
guard). -/
theorem speed_one (cmd : FFmpegCommand) (ha : Bool) : cmd.speed 1 ha = some cmd := by
  simp [FFmpegCommand.speed]

/-- With no audio track, `speed` only pushes the video `setpts` stage. -/
theorem speed_no_audio (cmd : FFmpegCommand) (m : ℚ) (hne : m ≠ 1) :
    cmd.speed m false = some
      { cmd with video_filters := cmd.video_filters ++ [.setpts (1/m)] } := by
  simp [FFmpegCommand.speed, hne]

/-- With audio, `speed` is the `setpts` push followed by the tempo chain. -/
theorem speed_audio_eq (cmd : FFmpegCommand) (m : ℚ) (hne : m ≠ 1) :
    cmd.speed m true = (speedAudio m).map (fun stages =>
      { cmd with video_filters := cmd.video_filters ++ [.setpts (1/m)],
                 audio_filters := cmd.audio_filters ++ stages }) := by
  simp [FFmpegCommand.speed, hne]

/-- When the tempo chain completes, `speed` appends exactly its stages. -/
theorem speed_audio_some (cmd : FFmpegCommand) (m : ℚ) (stages : List AudioFilter)
    (hne : m ≠ 1) (hsa : speedAudio m = some stages) :
    cmd.speed m true = some
      { cmd with video_filters := cmd.video_filters ++ [.setpts (1/m)],
                 audio_filters := cmd.audio_filters ++ stages } := by
  rw [speed_audio_eq cmd m hne, hsa]
  rfl

/-- **C1.** For every multiplier `m > 0` outside `[0.5, 2.0]` with audio
present, `FFmpegCommand::speed` emits a chain of audio tempo stages —
repeated 2.0-stages plus one residual stage when `m > 2.0` (for `m = 4` the
residual itself carries factor 2.0, so the emitted factors are exactly two
2.0-stages and nothing else), repeated 0.5-stages plus one residual stage
when `m < 0.5` — whose factors multiply to `m` exactly in the rational
model; `m = 4` yields the factors `[2, 2]` and `m = 3` yields `[2, 1.5]`. -/
theorem speed_chain_out_of_range (cmd : FFmpegCommand) (m : ℚ)
    (h0 : 0 < m) (hout : m < 1/2 ∨ 2 < m) :
    ∃ c' stages,
      cmd.speed m true = some c' ∧
      c'.audio_filters = cmd.audio_filters ++ stages ∧
      (stages.map AudioFilter.tempoFactor).prod = m ∧
      (2 < m → ∃ k r, 1 ≤ k ∧ 1 < r ∧ r ≤ 2 ∧
        stages = List.replicate k .atempo2 ++ [.atempo r]) ∧
      (m < 1/2 → ∃ k r, 1 ≤ k ∧ 1/2 ≤ r ∧ r < 1 ∧
        stages = List.replicate k .atempoHalf ++ [.atempo r]) ∧
      (m = 4 → stages.map AudioFilter.tempoFactor = [2, 2]) ∧
      (m = 3 → stages.map AudioFilter.tempoFactor = [2, 3/2]) := by
  have hne : m ≠ 1 := by
    rcases hout with h | h <;> intro he <;> rw [he] at h <;> norm_num at h
  rcases hout with hm | hm
  · obtain ⟨k, r, hsa, hcr, hhalf, hr1, hk⟩ := speedAudio_low m h0 hm
    refine ⟨_, List.replicate k .atempoHalf ++ [.atempo r],
      speed_audio_some cmd m _ hne hsa, rfl, ?_, ?_, ?_, ?_, ?_⟩
    · have hmap : (List.replicate k AudioFilter.atempoHalf ++
          [AudioFilter.atempo r]).map AudioFilter.tempoFactor =
          List.replicate k ((1:ℚ)/2) ++ [r] := by
        simp [AudioFilter.tempoFactor]
      rw [hmap, List.prod_append, List.prod_replicate, List.prod_singleton, hcr]
      have h2k : (2:ℚ) ^ k ≠ 0 := pow_ne_zero _ (by norm_num)
      field_simp
    · intro h2
      linarith
    · exact fun _ => ⟨k, r, hk, hhalf, hr1, rfl⟩
    · intro h4
      rw [h4] at hm
      norm_num at hm
    · intro h3
      rw [h3] at hm
      norm_num at hm
  · obtain ⟨k, r, hsa, hcr, h1r, hr2, hk⟩ := speedAudio_high m hm
    refine ⟨_, List.replicate k .atempo2 ++ [.atempo r],
      speed_audio_some cmd m _ hne hsa, rfl, ?_, ?_, ?_, ?_, ?_⟩
    · have hmap : (List.replicate k AudioFilter.atempo2 ++
          [AudioFilter.atempo r]).map AudioFilter.tempoFactor =
          List.replicate k (2:ℚ) ++ [r] := by
        simp [AudioFilter.tempoFactor]
      rw [hmap, List.prod_append, List.prod_replicate, List.prod_singleton, hcr]
      ring
    · exact fun _ => ⟨k, r, hk, h1r, hr2, rfl⟩
    · intro h2
      linarith
    · intro h4
      subst h4
      have he : speedAudio 4 = some [.atempo2, .atempo 2] := by
        norm_num [speedAudio, atempoChain, speedChainFuel, chainDownF, chainUp]
      have hlist := Option.some.inj (he.symm.trans hsa)
      rw [← hlist]
      rfl
    · intro h3
      subst h3
      have he : speedAudio 3 = some [.atempo2, .atempo (3/2)] := by
        norm_num [speedAudio, atempoChain, speedChainFuel, chainDownF, chainUp]
      have hlist := Option.some.inj (he.symm.trans hsa)
      rw [← hlist]
      rfl

/-- Witness for C1: the theorem applied at multiplier 3 on a fresh command. -/
theorem speed_chain_out_of_range_witness :
    ∃ c' stages,
      (FFmpegCommand.new "in.mp4" "out.mp4").speed 3 true = some c' ∧
      c'.audio_filters = (FFmpegCommand.new "in.mp4" "out.mp4").audio_filters ++ stages ∧
      (stages.map AudioFilter.tempoFactor).prod = 3 ∧
      ((2:ℚ) < 3 → ∃ k r, 1 ≤ k ∧ 1 < r ∧ r ≤ 2 ∧
        stages = List.replicate k .atempo2 ++ [.atempo r]) ∧
      ((3:ℚ) < 1/2 → ∃ k r, 1 ≤ k ∧ 1/2 ≤ r ∧ r < 1 ∧
        stages = List.replicate k .atempoHalf ++ [.atempo r]) ∧
      ((3:ℚ) = 4 → stages.map AudioFilter.tempoFactor = [2, 2]) ∧
      ((3:ℚ) = 3 → stages.map AudioFilter.tempoFactor = [2, 3/2]) :=
  speed_chain_out_of_range (FFmpegCommand.new "in.mp4" "out.mp4") 3
    (by norm_num) (Or.inr (by norm_num))

/-- **C2.** For `m ∈ [0.5, 2.0]`, `m ≠ 1`, with audio present, `speed` emits
exactly one audio tempo stage with factor `m`; with no audio track it emits
zero audio stages for every `m`; and whenever it returns, `m ≠ 1` yields
exactly one video `setpts` stage with factor `1/m`. -/
theorem speed_in_range_claims (cmd : FFmpegCommand) (m : ℚ) :
    (1/2 ≤ m → m ≤ 2 → m ≠ 1 →
      cmd.speed m true = some
        { cmd with video_filters := cmd.video_filters ++ [.setpts (1/m)],
                   audio_filters := cmd.audio_filters ++ [.atempo m] }) ∧
    (∀ c', cmd.speed m false = some c' → c'.audio_filters = cmd.audio_filters) ∧
    (m ≠ 1 → ∀ (ha : Bool) c', cmd.speed m ha = some c' →
      c'.video_filters = cmd.video_filters ++ [.setpts (1/m)]) := by
  refine ⟨fun h1 h2 hne => ?_, fun c' hc => ?_, fun hne ha c' hc => ?_⟩
  · exact speed_audio_some cmd m [.atempo m] hne (speedAudio_in_range m h1 h2)
  · by_cases hne : m = 1
    · subst hne
      rw [speed_one] at hc
      cases hc
      rfl
    · rw [speed_no_audio cmd m hne] at hc
      cases hc
      rfl
  · cases ha
    · rw [speed_no_audio cmd m hne] at hc
      cases hc
      rfl
    · rw [speed_audio_eq cmd m hne, Option.map_eq_some'] at hc
      obtain ⟨stages, -, heq⟩ := hc
      rw [← heq]

/-- Witness for C2: the theorem applied at multiplier 1.5 on a fresh
command, first conjunct discharged. -/
theorem speed_in_range_claims_witness :
    (FFmpegCommand.new "in.mp4" "out.mp4").speed (3/2) true = some
      { FFmpegCommand.new "in.mp4" "out.mp4" with
          video_filters := (FFmpegCommand.new "in.mp4" "out.mp4").video_filters ++
            [.setpts (1/(3/2))],
          audio_filters := (FFmpegCommand.new "in.mp4" "out.mp4").audio_filters ++
            [.atempo (3/2)] } :=
  (speed_in_range_claims (FFmpegCommand.new "in.mp4" "out.mp4") (3/2)).1
    (by norm_num) (by norm_num) (by norm_num)

/-- **C10.** With audio present the tempo-chaining loops terminate for every
multiplier `m > 0` (the fuelled model completes), and for `m ≤ 0` the
doubling loop exhausts every fuel — the source's `while current < 0.5` loop
never exits — so `m > 0` is a necessary precondition for totality. -/
theorem speed_loop_termination (cmd : FFmpegCommand) (m : ℚ) :
    (0 < m → (cmd.speed m true).isSome) ∧
    (m ≤ 0 → cmd.speed m true = none ∧ ∀ fuel, chainUp fuel m = none) := by
  constructor
  · intro h0
    by_cases hne : m = 1
    · subst hne
      rw [speed_one]
      rfl
    · rw [speed_audio_eq cmd m hne]
      rcases lt_or_le m (1/2) with hm | hm1
      · obtain ⟨k, r, hsa, -⟩ := speedAudio_low m h0 hm
        rw [hsa]
        rfl
      · rcases le_or_lt m 2 with hm2 | hm2
        · rw [speedAudio_in_range m hm1 hm2]
          rfl
        · obtain ⟨k, r, hsa, -⟩ := speedAudio_high m hm2
          rw [hsa]
          rfl
  · intro h0
    have hne : m ≠ 1 := by
      intro he
      rw [he] at h0
      norm_num at h0
    refine ⟨?_, fun fuel => chainUp_none_of_nonpos fuel m h0⟩
    rw [speed_audio_eq cmd m hne, speedAudio_none_of_nonpos m h0]
    rfl

/-- Witness for C10: termination at multiplier 3, divergence at -1. -/
theorem speed_loop_termination_witness :
    ((FFmpegCommand.new "in.mp4" "out.mp4").speed 3 true).isSome ∧
    (FFmpegCommand.new "in.mp4" "out.mp4").speed (-1) true = none :=
  ⟨(speed_loop_termination (FFmpegCommand.new "in.mp4" "out.mp4") 3).1 (by norm_num),
   ((speed_loop_termination (FFmpegCommand.new "in.mp4" "out.mp4") (-1)).2 (by norm_num)).1⟩


/-- One line changes the stored total only when it was unknown and the line
matches the duration pattern. -/
theorem processLine_total (st : MonitorState) (l : String) :
    (processLine st l).total_duration = st.total_duration.or (lineDuration l) := by
  rcases h1 : st.total_duration with - | d <;>
    rcases h2 : lineDuration l with - | d' <;>
      rcases h3 : lineTime l with - | e <;>
        simp [processLine, h1, h2, h3, Option.or]

/-- Folding the reader over lines resolves the total as the state's total,
else the first matching line of the batch. -/
theorem foldl_total (lines : List String) (st : MonitorState) :
    (lines.foldl processLine st).total_duration =
      st.total_duration.or (lines.findSome? lineDuration) := by
  induction lines generalizing st with
  | nil => simp [List.findSome?_nil]
  | cons l rest ih =>
      rw [List.foldl_cons, ih, processLine_total]
      rcases h2 : lineDuration l with - | d <;>
        rcases h1 : st.total_duration with - | d' <;>
          simp [List.findSome?_cons, h2, h1, Option.or]

/-- The reader's stored total is the first duration match of the stream. -/
theorem runMonitor_total (lines : List String) :
    (runMonitor lines).total_duration = lines.findSome? lineDuration := by
  rw [runMonitor, foldl_total]
  rfl

/-- One diagnostic line's contribution to the channel: at most one progress
sample, then the catch-all zero sample. -/
theorem processLine_sent (st : MonitorState) (l : String) :
    (processLine st l).sent = st.sent ++
      (match lineTime l, st.total_duration.or (lineDuration l) with
       | some e, some d => [(min (e / d * 100) 100, l)]
       | _, _ => []) ++ [(0, l)] := by
  rcases h1 : st.total_duration with - | d <;>
    rcases h2 : lineDuration l with - | d' <;>
      rcases h3 : lineTime l with - | e <;>
        simp [processLine, h1, h2, h3, Option.or]

/-- Samples already on the channel are never removed: folding more lines
only appends. -/
theorem sent_prefix (ls : List String) (st : MonitorState) :
    ∃ suffix, (ls.foldl processLine st).sent = st.sent ++ suffix := by
  induction ls generalizing st with
  | nil => exact ⟨[], by simp⟩
  | cons l rest ih =>
      rw [List.foldl_cons]
      obtain ⟨s2, hs2⟩ := ih (processLine st l)
      refine ⟨(match lineTime l, st.total_duration.or (lineDuration l) with
        | some e, some d => [(min (e / d * 100) 100, l)]
        | _, _ => []) ++ [(0, l)] ++ s2, ?_⟩
      rw [hs2, processLine_sent]
      simp [List.append_assoc]

/-- **C7.** The total duration is parsed exactly once, from the first
diagnostic line matching the duration pattern (`findSome?` returns the first
match); every later line leaves the stored total unchanged. -/
theorem runMonitor_total_first (lines : List String) :
    (runMonitor lines).total_duration = lines.findSome? lineDuration ∧
    (∀ more : List String, (runMonitor lines).total_duration.isSome →
      (runMonitor (lines ++ more)).total_duration = (runMonitor lines).total_duration) := by
  refine ⟨runMonitor_total lines, fun more hsome => ?_⟩
  rw [runMonitor, List.foldl_append, ← runMonitor, foldl_total]
  rcases h : (runMonitor lines).total_duration with - | d
  · rw [h] at hsome
    simp at hsome
  · rfl

/-- Witness for C7: a second duration line does not change the stored
total. -/
theorem runMonitor_total_first_witness :
    (runMonitor (["Duration: 00:02:00.00"] ++ ["Duration: 00:03:00.00"])).total_duration =
      (runMonitor ["Duration: 00:02:00.00"]).total_duration :=
  (runMonitor_total_first ["Duration: 00:02:00.00"]).2 ["Duration: 00:03:00.00"] (by
    have h : findKeyClock "Duration: ".data "Duration: 00:02:00.00".data =
        some (0, 2, 0, 0) := by decide
    have hd : lineDuration "Duration: 00:02:00.00" = some (clockToSecs 0 2 0 0) := by
      simp only [lineDuration, h, Option.map_some']
    have ht : lineTime "Duration: 00:02:00.00" = none := by
      have hq : findKeyClock "time=".data "Duration: 00:02:00.00".data = none := by decide
      simp only [lineTime, hq, Option.map_none']
    simp [runMonitor, processLine, initMonitor, hd, ht])

/-- Every sample the reader sends is the catch-all zero sample or carries
`min(elapsed/total*100, 100)` for the elapsed time parsed from its own line,
with the total that was (and stays) stored. -/
theorem runMonitor_sent_spec (lines : List String) :
    ∀ p ∈ (runMonitor lines).sent, p.1 = 0 ∨
      (∃ e d, lineTime p.2 = some e ∧ (runMonitor lines).total_duration = some d ∧
        p.1 = min (e / d * 100) 100) := by
  have main : ∀ (ls : List String) (st : MonitorState),
      (∀ p ∈ st.sent, p.1 = 0 ∨
        (∃ e d, lineTime p.2 = some e ∧ st.total_duration = some d ∧
          p.1 = min (e / d * 100) 100)) →
      ∀ p ∈ (ls.foldl processLine st).sent, p.1 = 0 ∨
        (∃ e d, lineTime p.2 = some e ∧
          (ls.foldl processLine st).total_duration = some d ∧
          p.1 = min (e / d * 100) 100) := by
    intro ls
    induction ls with
    | nil => intro st h; simpa using h
    | cons l rest ih =>
        intro st h
        rw [List.foldl_cons]
        apply ih
        intro p hp
        have htot : (processLine st l).total_duration =
            st.total_duration.or (lineDuration l) := processLine_total st l
        have hsent : (processLine st l).sent = st.sent ++
            (match lineTime l, st.total_duration.or (lineDuration l) with
             | some e, some d => [(min (e / d * 100) 100, l)]
             | _, _ => []) ++ [(0, l)] := by
          rcases h1 : st.total_duration with - | d <;>
            rcases h2 : lineDuration l with - | d' <;>
              rcases h3 : lineTime l with - | e <;>
                simp [processLine, h1, h2, h3, Option.or]
        rw [hsent] at hp
        rw [htot]
        rcases List.mem_append.mp hp with hp' | hlast
        · rcases List.mem_append.mp hp' with hold | hnew
          · rcases h p hold with h0 | ⟨e, d, he, hd, hv⟩
            · exact Or.inl h0
            · refine Or.inr ⟨e, d, he, ?_, hv⟩
              rw [hd]
              rfl
          · rcases h3 : lineTime l with - | e
            · rw [h3] at hnew
              simp at hnew
            · rcases h4 : st.total_duration.or (lineDuration l) with - | d
              · rw [h3, h4] at hnew
                simp at hnew
              · rw [h3, h4] at hnew
                have hps : p = (min (e / d * 100) 100, l) := by simpa using hnew
                subst hps
                exact Or.inr ⟨e, d, h3, rfl, rfl⟩
        · have hps : p = (0, l) := by simpa using hlast
          subst hps
          exact Or.inl rfl
  intro p hp
  exact main lines initMonitor (by simp [initMonitor]) p hp

/-- With no duration line in the stream nothing reaches the callback. -/
theorem deliveredSamples_nil (lines : List String)
    (hnone : lines.findSome? lineDuration = none) : deliveredSamples lines = [] := by
  rcases hcase : deliveredSamples lines with - | ⟨p, rest⟩
  · rfl
  · exfalso
    have hp : p ∈ deliveredSamples lines := by
      rw [hcase]
      exact List.mem_cons_self p rest
    have hmem := List.mem_filter.mp hp
    have hpos : 0 < p.1 := by simpa using hmem.2
    rcases runMonitor_sent_spec lines p hmem.1 with h0 | ⟨e, d, he, hd, hv⟩
    · rw [h0] at hpos
      norm_num at hpos
    · rw [runMonitor_total, hnone] at hd
      cases hd

/-- **C6.** Every delivered callback sample is strictly positive, at most
100, and equals `min(elapsed/total*100, 100)` for the elapsed time of a
progress line with the (first-parsed) total duration; zero samples — the
catch-all among them — are filtered out; with no duration line nothing is
delivered; every delivery originates after any prefix in which the total
was still unknown (progress lines read before the total never reach the
callback); and the spec's synthetic trace delivers exactly 25, 50, 100. -/
theorem progress_callback_spec (lines : List String) :
    (∀ p ∈ deliveredSamples lines, 0 < p.1 ∧ p.1 ≤ 100 ∧
      ∃ e d, lineTime p.2 = some e ∧ lines.findSome? lineDuration = some d ∧
        p.1 = min (e / d * 100) 100) ∧
    (callbackEvents lines).map Prod.fst = (deliveredSamples lines).map Prod.fst ∧
    (lines.findSome? lineDuration = none → deliveredSamples lines = []) ∧
    (∀ l1 l2 : List String, lines = l1 ++ l2 → l1.findSome? lineDuration = none →
      ∃ suffix, (runMonitor lines).sent = (runMonitor l1).sent ++ suffix ∧
        deliveredSamples lines = suffix.filter (fun q => 0 < q.1)) ∧
    (deliveredSamples ["Duration: 00:02:00.00", "frame=1 time=00:00:30.00",
      "frame=2 time=00:01:00.00", "frame=3 time=00:02:00.00"]).map Prod.fst =
      [25, 50, 100] := by
  have htotal := runMonitor_total lines
  have hmem : ∀ p ∈ deliveredSamples lines, p ∈ (runMonitor lines).sent ∧ 0 < p.1 := by
    intro p hp
    have := List.mem_filter.mp hp
    exact ⟨this.1, by simpa using this.2⟩
  refine ⟨fun p hp => ?_, ?_, fun hnone => deliveredSamples_nil lines hnone,
    fun l1 l2 hsplit hnone => ?_, ?_⟩
  · obtain ⟨hsent, hpos⟩ := hmem p hp
    rcases runMonitor_sent_spec lines p hsent with h0 | ⟨e, d, he, hd, hv⟩
    · rw [h0] at hpos
      norm_num at hpos
    · exact ⟨hpos, hv ▸ min_le_right _ _, e, d, he, htotal ▸ hd, hv⟩
  · simp [callbackEvents]
  · subst hsplit
    have hrm : runMonitor (l1 ++ l2) = l2.foldl processLine (runMonitor l1) := by
      rw [runMonitor, runMonitor, List.foldl_append]
    obtain ⟨suffix, hsuf⟩ := sent_prefix l2 (runMonitor l1)
    refine ⟨suffix, ?_, ?_⟩
    · rw [hrm]
      exact hsuf
    · have h1 : (runMonitor l1).sent.filter (fun q => 0 < q.1) = [] :=
        deliveredSamples_nil l1 hnone
      rw [deliveredSamples, hrm, hsuf, List.filter_append, h1, List.nil_append]
  · have hd1 : lineDuration "Duration: 00:02:00.00" = some 120 := by
      have h : findKeyClock "Duration: ".data "Duration: 00:02:00.00".data =
          some (0, 2, 0, 0) := by decide
      simp only [lineDuration, h, Option.map_some']
      norm_num [clockToSecs]
    have ht1 : lineTime "Duration: 00:02:00.00" = none := by
      have h : findKeyClock "time=".data "Duration: 00:02:00.00".data = none := by decide
      simp only [lineTime, h, Option.map_none']
    have hd2 : lineDuration "frame=1 time=00:00:30.00" = none := by
      have h : findKeyClock "Duration: ".data "frame=1 time=00:00:30.00".data = none := by
        decide
      simp only [lineDuration, h, Option.map_none']
    have ht2 : lineTime "frame=1 time=00:00:30.00" = some 30 := by
      have h : findKeyClock "time=".data "frame=1 time=00:00:30.00".data =
          some (0, 0, 30, 0) := by decide
      simp only [lineTime, h, Option.map_some']
      norm_num [clockToSecs]
    have hd3 : lineDuration "frame=2 time=00:01:00.00" = none := by
      have h : findKeyClock "Duration: ".data "frame=2 time=00:01:00.00".data = none := by
        decide
      simp only [lineDuration, h, Option.map_none']
    have ht3 : lineTime "frame=2 time=00:01:00.00" = some 60 := by
      have h : findKeyClock "time=".data "frame=2 time=00:01:00.00".data =
          some (0, 1, 0, 0) := by decide
      simp only [lineTime, h, Option.map_some']
      norm_num [clockToSecs]
    have hd4 : lineDuration "frame=3 time=00:02:00.00" = none := by
      have h : findKeyClock "Duration: ".data "frame=3 time=00:02:00.00".data = none := by
        decide
      simp only [lineDuration, h, Option.map_none']
    have ht4 : lineTime "frame=3 time=00:02:00.00" = some 120 := by
      have h : findKeyClock "time=".data "frame=3 time=00:02:00.00".data =
          some (0, 2, 0, 0) := by decide
      simp only [lineTime, h, Option.map_some']
      norm_num [clockToSecs]
    simp only [deliveredSamples, runMonitor, List.foldl, processLine, initMonitor,
      hd1, ht1, hd2, ht2, hd3, ht3, hd4, ht4]
    norm_num [min_def, List.filter]

/-- Witness for C6: the first delivered sample of the synthetic trace,
25 percent for the progress line at 30 seconds of 120. -/
theorem progress_callback_spec_witness :
    0 < (25:ℚ) ∧ (25:ℚ) ≤ 100 ∧
    ∃ e d, lineTime "frame=1 time=00:00:30.00" = some e ∧
      (["Duration: 00:02:00.00", "frame=1 time=00:00:30.00",
        "frame=2 time=00:01:00.00", "frame=3 time=00:02:00.00"].findSome? lineDuration) =
        some d ∧
      (25:ℚ) = min (e / d * 100) 100 := by
  have h := (progress_callback_spec ["Duration: 00:02:00.00", "frame=1 time=00:00:30.00",
    "frame=2 time=00:01:00.00", "frame=3 time=00:02:00.00"]).1
    ((25:ℚ), "frame=1 time=00:00:30.00")
  apply h
  have hd1 : lineDuration "Duration: 00:02:00.00" = some 120 := by
    have hq : findKeyClock "Duration: ".data "Duration: 00:02:00.00".data =
        some (0, 2, 0, 0) := by decide
    simp only [lineDuration, hq, Option.map_some']
    norm_num [clockToSecs]
  have ht1 : lineTime "Duration: 00:02:00.00" = none := by
    have hq : findKeyClock "time=".data "Duration: 00:02:00.00".data = none := by decide
    simp only [lineTime, hq, Option.map_none']
  have hd2 : lineDuration "frame=1 time=00:00:30.00" = none := by
    have hq : findKeyClock "Duration: ".data "frame=1 time=00:00:30.00".data = none := by
      decide
    simp only [lineDuration, hq, Option.map_none']
  have ht2 : lineTime "frame=1 time=00:00:30.00" = some 30 := by
    have hq : findKeyClock "time=".data "frame=1 time=00:00:30.00".data =
        some (0, 0, 30, 0) := by decide
    simp only [lineTime, hq, Option.map_some']
    norm_num [clockToSecs]
  have hd3 : lineDuration "frame=2 time=00:01:00.00" = none := by
    have hq : findKeyClock "Duration: ".data "frame=2 time=00:01:00.00".data = none := by
      decide
    simp only [lineDuration, hq, Option.map_none']
  have ht3 : lineTime "frame=2 time=00:01:00.00" = some 60 := by
    have hq : findKeyClock "time=".data "frame=2 time=00:01:00.00".data =
        some (0, 1, 0, 0) := by decide
    simp only [lineTime, hq, Option.map_some']
    norm_num [clockToSecs]
  have hd4 : lineDuration "frame=3 time=00:02:00.00" = none := by
    have hq : findKeyClock "Duration: ".data "frame=3 time=00:02:00.00".data = none := by
      decide
    simp only [lineDuration, hq, Option.map_none']
  have ht4 : lineTime "frame=3 time=00:02:00.00" = some 120 := by
    have hq : findKeyClock "time=".data "frame=3 time=00:02:00.00".data =
        some (0, 2, 0, 0) := by decide
    simp only [lineTime, hq, Option.map_some']
    norm_num [clockToSecs]
  simp only [deliveredSamples, runMonitor, List.foldl, processLine, initMonitor,
    hd1, ht1, hd2, ht2, hd3, ht3, hd4, ht4]
  norm_num [min_def, List.filter]

/-- **C5 (amended).** A non-zero or signal exit yields a failure whose
message reports the Debug-formatted exit code and refers to the logs, while
the full transcript goes to the error log, not into the returned failure;
the signal case differs from every numeric non-zero case only in the
message text (`None` versus `Some(n)`), not as a separate error variant;
a zero exit is success with no transcript and no error log. -/
theorem executeReconcile_spec (code : Option ℤ) (t : String) :
    (code ≠ some 0 →
      executeReconcile code t =
        (["FFmpeg failed with output:\n" ++ t],
         Except.error ("FFmpeg failed with exit code: " ++ fmtOptionCode code ++
           ". Check logs for details."))) ∧
    (code = some 0 → executeReconcile code t = ([], Except.ok ())) ∧
    (∀ n : ℤ, fmtOptionCode none ≠ fmtOptionCode (some n)) := by
  refine ⟨fun h => by simp [executeReconcile, h], fun h => by simp [executeReconcile, h],
    fun n h => ?_⟩
  have h2 := congrArg String.data h
  rw [fmtOptionCode, fmtOptionCode, String.data_append, String.data_append] at h2
  have hn : "None".data = 'N' :: "one".data := rfl
  have hs : "Some(".data = 'S' :: "ome(".data := rfl
  rw [hn, hs, List.cons_append, List.cons_append] at h2
  injection h2 with hhead htail
  exact absurd hhead (by decide)

/-- Witness for C5: a killed child (no exit code) and transcript `"t"`. -/
theorem executeReconcile_spec_witness :
    executeReconcile none "t" =
      (["FFmpeg failed with output:\nt"],
       Except.error "FFmpeg failed with exit code: None. Check logs for details.") :=
  (executeReconcile_spec none "t").1 (by simp)

/-- Counterexample to C5 as stated: the returned failure of a non-zero exit
does not include the captured transcript.  The error value is identical for
two different transcripts, and the transcript text is not contained in the
message; the transcript reaches only the log. -/
theorem executeReconcile_transcript_counterexample :
    (executeReconcile (some 1) "unique transcript 247").2 =
      Except.error "FFmpeg failed with exit code: Some(1). Check logs for details." ∧
    ¬ ("unique transcript 247".data <:+:
       "FFmpeg failed with exit code: Some(1). Check logs for details.".data) ∧
    (executeReconcile (some 1) "unique transcript 247").2 =
      (executeReconcile (some 1) "another transcript").2 := by
  refine ⟨rfl, by decide, rfl⟩


/-- A completed `speed` call appends exactly one `setpts` stage to the video
track. -/
theorem speed_video_filters (cmd : FFmpegCommand) (m : ℚ) (ha : Bool) (c1 : FFmpegCommand)
    (hne : m ≠ 1) (h : cmd.speed m ha = some c1) :
    c1.video_filters = cmd.video_filters ++ [.setpts (1/m)] := by
  cases ha
  · rw [speed_no_audio cmd m hne] at h
    cases h
    rfl
  · rw [speed_audio_eq cmd m hne, Option.map_eq_some'] at h
    obtain ⟨stages, -, heq⟩ := h
    rw [← heq]

/-- The settings prefix pushes no video filter. -/
theorem buildPrefix_video (hwMethod : String) (p : VideoProcessor) :
    (buildPrefix hwMethod p).video_filters = [] := by
  rcases h1 : p.bitrate with - | b <;> rcases h2 : p.threads with - | t <;>
    by_cases h3 : p.hw_accel <;>
      simp [buildPrefix, h1, h2, h3, FFmpegCommand.new, FFmpegCommand.video_codecSet,
        FFmpegCommand.qualitySet, FFmpegCommand.overwriteSet, FFmpegCommand.preserve_metadata,
        FFmpegCommand.bitrateSet, FFmpegCommand.threadsSet, FFmpegCommand.hardware_accel]

/-- The LUT step appends exactly the LUT segment. -/
theorem applyLut_video (fs : String → Bool) (p : VideoProcessor) (cmd : FFmpegCommand) :
    (applyLut fs p cmd).video_filters = cmd.video_filters ++ lutSeg fs p := by
  rcases h : p.lut_file with - | l
  · rcases h2 : getProfileLut fs p.profile with - | l <;>
      simp [applyLut, lutSeg, h, h2, FFmpegCommand.lut3d]
  · simp [applyLut, lutSeg, h, FFmpegCommand.lut3d]

/-- The contrast/saturation step appends exactly its segment. -/
theorem applyColorEnhance_video (p : VideoProcessor) (cmd : FFmpegCommand) :
    (applyColorEnhance p cmd).video_filters = cmd.video_filters ++ eqSeg p := by
  by_cases h : p.contrast ≠ 1 ∨ p.saturation ≠ 1 <;>
    simp [applyColorEnhance, eqSeg, h, FFmpegCommand.color_enhance]

/-- The stabilization step appends exactly its segment. -/
theorem applyStabilize_video (p : VideoProcessor) (cmd : FFmpegCommand) :
    (applyStabilize p cmd).video_filters = cmd.video_filters ++ stabSeg p := by
  by_cases h : p.stabilize <;> simp [applyStabilize, stabSeg, h, FFmpegCommand.stabilize]

/-- The rotation step appends exactly its segment. -/
theorem applyRotation_video (p : VideoProcessor) (info : VideoInfo) (cmd : FFmpegCommand) :
    (applyRotation p info cmd).video_filters = cmd.video_filters ++ rotSeg p info := by
  by_cases h1 : p.auto_rotate
  · simp [applyRotation, rotSeg, h1, FFmpegCommand.auto_rotate]
  · by_cases h2 : info.rotation = 0
    · simp [applyRotation, rotSeg, h1, h2]
    · by_cases h3 : info.rotation = 90
      · simp [applyRotation, rotSeg, h1, h2, h3, FFmpegCommand.rotate]
      · by_cases h4 : info.rotation = -90 ∨ info.rotation = 270
        · simp [applyRotation, rotSeg, h1, h2, h3, h4, FFmpegCommand.rotate]
        · by_cases h5 : info.rotation = 180
          · simp [applyRotation, rotSeg, h1, h2, h3, h4, h5, FFmpegCommand.rotate]
          · simp [applyRotation, rotSeg, h1, h2, h3, h4, h5]

/-- The denoise step appends exactly its segment. -/
theorem applyDenoise_video (p : VideoProcessor) (cmd : FFmpegCommand) :
    (applyDenoise p cmd).video_filters = cmd.video_filters ++ denoiseSeg p := by
  rcases h : p.denoise with - | st <;>
    simp [applyDenoise, denoiseSeg, h, FFmpegCommand.denoise]

/-- The sharpen step appends exactly its segment. -/
theorem applySharpen_video (p : VideoProcessor) (cmd : FFmpegCommand) :
    (applySharpen p cmd).video_filters = cmd.video_filters ++ sharpenSeg p := by
  rcases h : p.sharpen with - | st <;>
    simp [applySharpen, sharpenSeg, h, FFmpegCommand.sharpen]

/-- The vibrance step appends exactly its segment. -/
theorem applyVibrance_video (p : VideoProcessor) (cmd : FFmpegCommand) :
    (applyVibrance p cmd).video_filters = cmd.video_filters ++ vibranceSeg p := by
  rcases h : p.vibrance with - | v <;>
    simp [applyVibrance, vibranceSeg, h, FFmpegCommand.vibrance]

/-- The curves step appends exactly its segment. -/
theorem applyCurves_video (p : VideoProcessor) (cmd : FFmpegCommand) :
    (applyCurves p cmd).video_filters = cmd.video_filters ++ curvesSeg p := by
  rcases h : p.curves with - | cs <;>
    simp [applyCurves, curvesSeg, h, FFmpegCommand.curves]

/-- The hue-shift step appends exactly its segment. -/
theorem applyHueShift_video (p : VideoProcessor) (cmd : FFmpegCommand) :
    (applyHueShift p cmd).video_filters = cmd.video_filters ++ hueSeg p := by
  rcases h : p.hue_shift with - | deg <;>
    simp [applyHueShift, hueSeg, h, FFmpegCommand.hue_shift]

/-- The color-balance step appends exactly its segment. -/
theorem applyColorBalance_video (p : VideoProcessor) (cmd : FFmpegCommand) :
    (applyColorBalance p cmd).video_filters = cmd.video_filters ++ cbSeg p := by
  rcases h : p.color_balance with - | ⟨a, b, c, d, e, f, g, h9, i⟩ <;>
    simp [applyColorBalance, cbSeg, h, FFmpegCommand.color_balance]

/-- The selective-color step appends exactly its segment. -/
theorem applySelectiveColor_video (p : VideoProcessor) (cmd : FFmpegCommand) :
    (applySelectiveColor p cmd).video_filters = cmd.video_filters ++ scSeg p := by
  rcases h : p.selective_color with - | sel <;>
    simp [applySelectiveColor, scSeg, h, FFmpegCommand.selective_color]

/-- The scale step appends exactly its segment. -/
theorem applyScale_video (p : VideoProcessor) (cmd : FFmpegCommand) :
    (applyScale p cmd).video_filters = cmd.video_filters ++ scaleSeg p := by
  rcases h : p.scale with - | str
  · simp [applyScale, scaleSeg, h]
  · rcases h2 : scaleFilterOfStr str with - | ⟨w, hgt⟩ <;>
      simp [applyScale, scaleSeg, h, h2, FFmpegCommand.scale]

/-- The video filter list of every completed command construction is the
thirteen fixed-order segments. -/
theorem buildCommand_filters (fs : String → Bool) (hwMethod : String) (p : VideoProcessor)
    (info : VideoInfo) (c' : FFmpegCommand)
    (h : VideoProcessor.buildCommand fs hwMethod p info = some c') :
    c'.video_filters = orderedFilters fs p info := by
  simp only [VideoProcessor.buildCommand] at h
  split at h
  · cases h
  · rename_i cmd1 hs
    injection h with hc
    subst hc
    have hv1 : cmd1.video_filters = speedSeg p := by
      by_cases hsp : p.speed_multiplier ≠ 1
      · rw [if_pos hsp] at hs
        rw [speed_video_filters (buildPrefix hwMethod p) p.speed_multiplier info.has_audio
          cmd1 hsp hs, buildPrefix_video]
        simp [speedSeg, hsp]
      · rw [if_neg hsp] at hs
        injection hs with hs1
        rw [← hs1, buildPrefix_video]
        simp [speedSeg, hsp]
    rw [applyScale_video, applySelectiveColor_video, applyColorBalance_video,
      applyHueShift_video, applyCurves_video, applyVibrance_video, applySharpen_video,
      applyDenoise_video, applyRotation_video, applyStabilize_video, applyColorEnhance_video,
      applyLut_video, hv1]
    simp [orderedFilters, List.append_assoc]


/-- Elements of the speed segment are `setpts` stages. -/
theorem mem_speedSeg {p : VideoProcessor} {f : VideoFilter} (h : f ∈ speedSeg p) :
    ∃ q, f = .setpts q := by
  unfold speedSeg at h
  split_ifs at h
  · simp at h
    exact ⟨_, h⟩
  · simp at h

/-- Elements of the LUT segment are `lut3d` stages. -/
theorem mem_lutSeg {fs : String → Bool} {p : VideoProcessor} {f : VideoFilter}
    (h : f ∈ lutSeg fs p) : ∃ l, f = .lut3d l := by
  unfold lutSeg at h
  rcases hl : p.lut_file with - | l
  · rw [hl] at h
    rcases hp : getProfileLut fs p.profile with - | l2
    · rw [hp] at h
      simp at h
    · rw [hp] at h
      simp at h
      exact ⟨_, h⟩
  · rw [hl] at h
    simp at h
    exact ⟨_, h⟩

/-- Elements of the contrast/saturation segment are `eq` stages. -/
theorem mem_eqSeg {p : VideoProcessor} {f : VideoFilter} (h : f ∈ eqSeg p) :
    ∃ c s, f = .eqCS c s := by
  unfold eqSeg at h
  split_ifs at h
  · simp at h
    exact ⟨_, _, h⟩
  · simp at h

/-- Elements of the stabilization segment are `deshake`. -/
theorem mem_stabSeg {p : VideoProcessor} {f : VideoFilter} (h : f ∈ stabSeg p) :
    f = .deshake := by
  unfold stabSeg at h
  split_ifs at h
  · simpa using h
  · simp at h

/-- Elements of the rotation segment are transpose stages. -/
theorem mem_rotSeg {p : VideoProcessor} {info : VideoInfo} {f : VideoFilter}
    (h : f ∈ rotSeg p info) :
    f = .transpose 0 ∨ f = .transpose 1 ∨ f = .transpose180 := by
  unfold rotSeg at h
  split_ifs at h <;> simp at h <;> simp [h]

/-- Elements of the denoise segment are `nlmeans` stages. -/
theorem mem_denoiseSeg {p : VideoProcessor} {f : VideoFilter} (h : f ∈ denoiseSeg p) :
    ∃ n, f = .nlmeans n := by
  unfold denoiseSeg at h
  rcases hd : p.denoise with - | st <;> rw [hd] at h <;> simp at h
  exact ⟨_, h⟩

/-- Elements of the sharpen segment are `unsharp` stages. -/
theorem mem_sharpenSeg {p : VideoProcessor} {f : VideoFilter} (h : f ∈ sharpenSeg p) :
    ∃ q, f = .unsharp q := by
  unfold sharpenSeg at h
  rcases hd : p.sharpen with - | st <;> rw [hd] at h <;> simp at h
  exact ⟨_, h⟩

/-- Elements of the vibrance segment are `vibrance` stages. -/
theorem mem_vibranceSeg {p : VideoProcessor} {f : VideoFilter} (h : f ∈ vibranceSeg p) :
    ∃ q, f = .vibrance q := by
  unfold vibranceSeg at h
  rcases hd : p.vibrance with - | v <;> rw [hd] at h <;> simp at h
  exact ⟨_, h⟩

/-- Elements of the curves segment are `curves` stages. -/
theorem mem_curvesSeg {p : VideoProcessor} {f : VideoFilter} (h : f ∈ curvesSeg p) :
    ∃ cs, f = .curves cs := by
  unfold curvesSeg at h
  rcases hd : p.curves with - | cs <;> rw [hd] at h <;> simp at h
  exact ⟨_, h⟩

/-- Elements of the hue segment are `hue` stages. -/
theorem mem_hueSeg {p : VideoProcessor} {f : VideoFilter} (h : f ∈ hueSeg p) :
    ∃ q, f = .hue q := by
  unfold hueSeg at h
  rcases hd : p.hue_shift with - | deg <;> rw [hd] at h <;> simp at h
  exact ⟨_, h⟩

/-- An element of the color-balance segment certifies the stored field. -/
theorem mem_cbSeg {p : VideoProcessor} {f : VideoFilter} (h : f ∈ cbSeg p) :
    ∃ a b c d e g i j k, p.color_balance = some (a, b, c, d, e, g, i, j, k) ∧
      f = .colorbalance a b c d e g i j k := by
  unfold cbSeg at h
  rcases hd : p.color_balance with - | ⟨a, b, c, d, e, g, i, j, k⟩ <;> rw [hd] at h <;>
    simp at h
  exact ⟨a, b, c, d, e, g, i, j, k, rfl, h⟩

/-- Elements of the selective-color segment are `selectivecolor` stages. -/
theorem mem_scSeg {p : VideoProcessor} {f : VideoFilter} (h : f ∈ scSeg p) :
    ∃ cs, f = .selectivecolor cs := by
  unfold scSeg at h
  rcases hd : p.selective_color with - | sel <;> rw [hd] at h <;> simp at h
  exact ⟨_, h⟩

/-- An element of the scale segment certifies a successful scale parse. -/
theorem mem_scaleSeg {p : VideoProcessor} {f : VideoFilter} (h : f ∈ scaleSeg p) :
    ∃ str w hgt, p.scale = some str ∧ scaleFilterOfStr str = some (w, hgt) ∧
      f = .scale w hgt := by
  unfold scaleSeg at h
  rcases hd : p.scale with - | str
  · rw [hd] at h
    simp at h
  · rw [hd] at h
    rcases h2 : scaleFilterOfStr str with - | ⟨w, hgt⟩
    · simp [h2] at h
    · simp [h2] at h
      exact ⟨str, w, hgt, rfl, h2, h⟩

/-- With no stored color balance, no stage of the fixed order is a
color-balance stage. -/
theorem orderedFilters_no_colorbalance (fs : String → Bool) (p : VideoProcessor)
    (info : VideoInfo) (hcb : p.color_balance = none) :
    ∀ f ∈ orderedFilters fs p info, f.isColorBalance = false := by
  intro f hf
  simp only [orderedFilters, List.mem_append] at hf
  rcases hf with
    (((((((((((hf | hf) | hf) | hf) | hf) | hf) | hf) | hf) | hf) | hf) | hf) | hf) | hf
  · obtain ⟨q, rfl⟩ := mem_speedSeg hf
    rfl
  · obtain ⟨l, rfl⟩ := mem_lutSeg hf
    rfl
  · obtain ⟨c, sa, rfl⟩ := mem_eqSeg hf
    rfl
  · rw [mem_stabSeg hf]
    rfl
  · rcases mem_rotSeg hf with rfl | rfl | rfl <;> rfl
  · obtain ⟨n, rfl⟩ := mem_denoiseSeg hf
    rfl
  · obtain ⟨q, rfl⟩ := mem_sharpenSeg hf
    rfl
  · obtain ⟨q, rfl⟩ := mem_vibranceSeg hf
    rfl
  · obtain ⟨cs, rfl⟩ := mem_curvesSeg hf
    rfl
  · obtain ⟨q, rfl⟩ := mem_hueSeg hf
    rfl
  · obtain ⟨a, b, c, d, e, g, i, j, k, hsome, rfl⟩ := mem_cbSeg hf
    rw [hcb] at hsome
    cases hsome
  · obtain ⟨cs, rfl⟩ := mem_scSeg hf
    rfl
  · obtain ⟨str, w, hgt, -, -, rfl⟩ := mem_scaleSeg hf
    rfl

/-- With a stored scale string that fails to parse, no stage of the fixed
order is a scale stage. -/
theorem orderedFilters_no_scale (fs : String → Bool) (p : VideoProcessor)
    (info : VideoInfo) (s : String) (hsc : p.scale = some s)
    (hfail : scaleFilterOfStr s = none) :
    ∀ f ∈ orderedFilters fs p info, f.isScale = false := by
  intro f hf
  simp only [orderedFilters, List.mem_append] at hf
  rcases hf with
    (((((((((((hf | hf) | hf) | hf) | hf) | hf) | hf) | hf) | hf) | hf) | hf) | hf) | hf
  · obtain ⟨q, rfl⟩ := mem_speedSeg hf
    rfl
  · obtain ⟨l, rfl⟩ := mem_lutSeg hf
    rfl
  · obtain ⟨c, sa, rfl⟩ := mem_eqSeg hf
    rfl
  · rw [mem_stabSeg hf]
    rfl
  · rcases mem_rotSeg hf with rfl | rfl | rfl <;> rfl
  · obtain ⟨n, rfl⟩ := mem_denoiseSeg hf
    rfl
  · obtain ⟨q, rfl⟩ := mem_sharpenSeg hf
    rfl
  · obtain ⟨q, rfl⟩ := mem_vibranceSeg hf
    rfl
  · obtain ⟨cs, rfl⟩ := mem_curvesSeg hf
    rfl
  · obtain ⟨q, rfl⟩ := mem_hueSeg hf
    rfl
  · obtain ⟨a, b, c, d, e, g, i, j, k, -, rfl⟩ := mem_cbSeg hf
    rfl
  · obtain ⟨cs, rfl⟩ := mem_scSeg hf
    rfl
  · obtain ⟨str, w, hgt, hsome, hparse, rfl⟩ := mem_scaleSeg hf
    rw [hsc] at hsome
    injection hsome with hstr
    rw [← hstr] at hparse
    rw [hparse] at hfail
    cases hfail


/-- **C3.** For every configuration of `VideoProcessor` options, the video
filter list of the command built by `process` is the concatenation of the
thirteen segments in the fixed application order speed remap → LUT →
contrast/saturation → stabilization → rotation → denoise → sharpen →
vibrance → curves → hue shift → color balance → selective color → scale.
The statement quantifies over every field record, and the option setters do
nothing but assign fields, so the order cannot depend on the order in which
a caller invoked them. -/
theorem process_filter_order (fs : String → Bool) (hwMethod : String) (p : VideoProcessor)
    (info : VideoInfo) (c' : FFmpegCommand)
    (h : VideoProcessor.buildCommand fs hwMethod p info = some c') :
    c'.video_filters = orderedFilters fs p info :=
  buildCommand_filters fs hwMethod p info c' h

/-- Witness for C3: a processor with stabilization and denoise set. -/
theorem process_filter_order_witness :
    ∃ c', VideoProcessor.buildCommand (fun _ => false) "vaapi"
        (((VideoProcessor.new "in.mp4" "out.mp4").stabilizeSet true).denoiseSet 5)
        ⟨120, 1920, 1080, 30, 0, true⟩ = some c' ∧
      c'.video_filters = orderedFilters (fun _ => false)
        (((VideoProcessor.new "in.mp4" "out.mp4").stabilizeSet true).denoiseSet 5)
        ⟨120, 1920, 1080, 30, 0, true⟩ :=
  ⟨_, rfl, process_filter_order _ _ _ _ _ rfl⟩

/-- **C8.** `color_balance_str` accepts exactly three comma-separated parts
of exactly three numeric components each — a conforming string always stores
a nine-tuple; any shape violation leaves the processor unchanged (so no
stage is emitted and no error is raised); the well-formed example parses to
its nine values; and a processor without a stored color balance yields a
command with no color-balance stage. -/
theorem color_balance_str_spec :
    (∀ (p : VideoProcessor) (s : String),
      ¬((splitOnChar ',' s).length = 3 ∧
        ∀ part ∈ splitOnChar ',' s,
          ((splitOnChar ':' part).filterMap parseF32?).length = 3) →
      p.color_balance_str s = p) ∧
    (∀ (p : VideoProcessor) (s : String),
      (splitOnChar ',' s).length = 3 →
      (∀ part ∈ splitOnChar ',' s,
        ((splitOnChar ':' part).filterMap parseF32?).length = 3) →
      ∃ v, (p.color_balance_str s).color_balance = some v) ∧
    (((VideoProcessor.new "i" "o").color_balance_str
        "0.1:-0.1:0,0:0:0,-0.1:0:0.1").color_balance =
      some (1/10, -(1/10), 0, 0, 0, 0, -(1/10), 0, 1/10)) ∧
    ((VideoProcessor.new "i" "o").color_balance_str "0.1:-0.1,0:0:0,0:0:0" =
      VideoProcessor.new "i" "o") ∧
    (∀ (fs : String → Bool) (hw : String) (p : VideoProcessor) (info : VideoInfo)
      (c' : FFmpegCommand), p.color_balance = none →
      VideoProcessor.buildCommand fs hw p info = some c' →
      ∀ f ∈ c'.video_filters, f.isColorBalance = false) := by
  have hp01 : parseF32? "0.1" = some (1/10) := by
    have hq : parseF32Syn "0.1" = some (1, 0, 1, 1, 0) := by decide
    simp only [parseF32?, hq, Option.map_some']
    norm_num
  have hpm01 : parseF32? "-0.1" = some (-(1/10)) := by
    have hq : parseF32Syn "-0.1" = some (-1, 0, 1, 1, 0) := by decide
    simp only [parseF32?, hq, Option.map_some']
    norm_num
  have hp0 : parseF32? "0" = some 0 := by
    have hq : parseF32Syn "0" = some (1, 0, 0, 0, 0) := by decide
    simp only [parseF32?, hq, Option.map_some']
    norm_num
  refine ⟨fun p s hshape => ?_, fun p s hlen hall => ?_, ?_, ?_,
    fun fs hw p info c' hcb hbc => ?_⟩
  · simp only [VideoProcessor.color_balance_str]
    by_cases hlen : (splitOnChar ',' s).length = 3
    · rw [if_pos hlen]
      obtain ⟨a, b, c, habc⟩ := List.length_eq_three.mp hlen
      rw [habc]
      simp only [List.getD_cons_zero, List.getD_cons_succ]
      by_cases hc1 : ((splitOnChar ':' a).filterMap parseF32?).length = 3 ∧
          ((splitOnChar ':' b).filterMap parseF32?).length = 3 ∧
          ((splitOnChar ':' c).filterMap parseF32?).length = 3
      · exfalso
        apply hshape
        refine ⟨hlen, fun part hpart => ?_⟩
        rw [habc] at hpart
        simp at hpart
        rcases hpart with rfl | rfl | rfl
        · exact hc1.1
        · exact hc1.2.1
        · exact hc1.2.2
      · rw [if_neg hc1]
    · rw [if_neg hlen]
  · simp only [VideoProcessor.color_balance_str]
    rw [if_pos hlen]
    obtain ⟨a, b, c, habc⟩ := List.length_eq_three.mp hlen
    rw [habc]
    simp only [List.getD_cons_zero, List.getD_cons_succ]
    have ha3 := hall a (by rw [habc]; simp)
    have hb3 := hall b (by rw [habc]; simp)
    have hc3 := hall c (by rw [habc]; simp)
    rw [if_pos ⟨ha3, hb3, hc3⟩]
    obtain ⟨x1, x2, x3, hx⟩ := List.length_eq_three.mp ha3
    obtain ⟨y1, y2, y3, hy⟩ := List.length_eq_three.mp hb3
    obtain ⟨z1, z2, z3, hz⟩ := List.length_eq_three.mp hc3
    rw [hx, hy, hz]
    exact ⟨_, rfl⟩
  · have hsplit1 : splitOnChar ',' "0.1:-0.1:0,0:0:0,-0.1:0:0.1" =
        ["0.1:-0.1:0", "0:0:0", "-0.1:0:0.1"] := by decide
    have hs1 : splitOnChar ':' "0.1:-0.1:0" = ["0.1", "-0.1", "0"] := by decide
    have hs2 : splitOnChar ':' "0:0:0" = ["0", "0", "0"] := by decide
    have hs3 : splitOnChar ':' "-0.1:0:0.1" = ["-0.1", "0", "0.1"] := by decide
    simp only [VideoProcessor.color_balance_str, hsplit1, List.getD_cons_zero,
      List.getD_cons_succ, hs1, hs2, hs3, List.filterMap_cons, List.filterMap_nil,
      hp01, hpm01, hp0]
    norm_num
  · have hsplit1 : splitOnChar ',' "0.1:-0.1,0:0:0,0:0:0" =
        ["0.1:-0.1", "0:0:0", "0:0:0"] := by decide
    have hs1 : splitOnChar ':' "0.1:-0.1" = ["0.1", "-0.1"] := by decide
    have hs2 : splitOnChar ':' "0:0:0" = ["0", "0", "0"] := by decide
    simp only [VideoProcessor.color_balance_str, hsplit1, List.getD_cons_zero,
      List.getD_cons_succ, hs1, hs2, List.filterMap_cons, List.filterMap_nil,
      hp01, hpm01, hp0]
    norm_num
  · intro f hf
    rw [buildCommand_filters fs hw p info c' hbc] at hf
    exact orderedFilters_no_colorbalance fs p info hcb f hf

/-- Witness for C8: a single-part string fails the shape and leaves the
processor unchanged. -/
theorem color_balance_str_spec_witness :
    (VideoProcessor.new "i" "o").color_balance_str "bad" = VideoProcessor.new "i" "o" :=
  color_balance_str_spec.1 (VideoProcessor.new "i" "o") "bad"
    (fun hc => absurd hc.1 (by decide))

/-- **C9.** Scale-string handling accepts `WxH` or `W:H`; an unparsable
width drops the whole option — no scale stage reaches the built command —
while a missing or unparsable height defaults to -1; `1920x1080` gives
(1920, 1080) and `1920:-1` gives (1920, -1). -/
theorem scale_string_spec :
    scaleFilterOfStr "1920x1080" = some (1920, 1080) ∧
    scaleFilterOfStr "1920:-1" = some (1920, -1) ∧
    (∀ s ws hs, splitOnce 'x' s = some (ws, hs) → parseI32? ws = none →
      scaleFilterOfStr s = none) ∧
    (∀ s ws hs, splitOnce 'x' s = none → splitOnce ':' s = some (ws, hs) →
      parseI32? ws = none → scaleFilterOfStr s = none) ∧
    (∀ s ws hs w, splitOnce 'x' s = some (ws, hs) → parseI32? ws = some w →
      parseI32? hs = none → scaleFilterOfStr s = some (w, -1)) ∧
    (∀ s ws hs w, splitOnce 'x' s = none → splitOnce ':' s = some (ws, hs) →
      parseI32? ws = some w → parseI32? hs = none → scaleFilterOfStr s = some (w, -1)) ∧
    (∀ (fs : String → Bool) (hw : String) (p : VideoProcessor) (info : VideoInfo)
      (c' : FFmpegCommand) (s : String), p.scale = some s → scaleFilterOfStr s = none →
      VideoProcessor.buildCommand fs hw p info = some c' →
      ∀ f ∈ c'.video_filters, f.isScale = false) := by
  refine ⟨by decide, by decide, fun s ws hs h1 h2 => ?_, fun s ws hs h0 h1 h2 => ?_,
    fun s ws hs w h1 h2 h3 => ?_, fun s ws hs w h0 h1 h2 h3 => ?_,
    fun fs hw p info c' s hsc hfail hbc => ?_⟩
  · simp [scaleFilterOfStr, h1, h2]
  · simp [scaleFilterOfStr, h0, h1, h2]
  · simp [scaleFilterOfStr, h1, h2, h3]
  · simp [scaleFilterOfStr, h0, h1, h2, h3]
  · intro f hf
    rw [buildCommand_filters fs hw p info c' hbc] at hf
    exact orderedFilters_no_scale fs p info s hsc hfail f hf

/-- Witness for C9: `axb` splits at the `x` but the width fails to parse,
so the option is dropped. -/
theorem scale_string_spec_witness : scaleFilterOfStr "axb" = none :=
  scale_string_spec.2.2.1 "axb" "a" "b" (by decide) (by decide)

/-- **C4.** Whenever exactly one track has filters, the assembled argument
list maps the filtered track through its bracketed filter-graph label and
the other track through the optional unfiltered stream map (`0:a?` or
`0:v?`), so the unfiltered stream is never dropped. -/
theorem build_maps_unfiltered (cmd : FFmpegCommand) :
    (cmd.video_filters ≠ [] → cmd.audio_filters = [] →
      ∃ pre post, cmd.build = pre ++ ["-filter_complex", filterComplexStr cmd,
          "-map", "[v]", "-map", "0:a?"] ++ post ∧
        filterComplexStr cmd = "[0:v]" ++
          String.intercalate "," (cmd.video_filters.map VideoFilter.render) ++ "[v]") ∧
    (cmd.video_filters = [] → cmd.audio_filters ≠ [] →
      ∃ pre post, cmd.build = pre ++ ["-filter_complex", filterComplexStr cmd,
          "-map", "0:v?", "-map", "[a]"] ++ post ∧
        filterComplexStr cmd = "[0:a]" ++
          String.intercalate "," (cmd.audio_filters.map AudioFilter.render) ++ "[a]") := by
  constructor
  · intro hv ha
    have hfc : filterComplexStr cmd = "[0:v]" ++
        String.intercalate "," (cmd.video_filters.map VideoFilter.render) ++ "[v]" := by
      simp [filterComplexStr, List.isEmpty_iff, hv, ha]
    have hne : ¬(filterComplexStr cmd = "") := by
      rw [hfc]
      intro he
      have hd := congrArg String.data he
      rw [String.data_append, String.data_append] at hd
      simp at hd
    have hargs : buildFilterArgs cmd = ["-filter_complex", filterComplexStr cmd,
        "-map", "[v]", "-map", "0:a?"] := by
      rw [buildFilterArgs, if_neg hne]
      simp [List.isEmpty_iff, hv, ha]
    refine ⟨(if cmd.overwrite then ["-y"] else []) ++
      (match cmd.hw_accel with | some hw => ["-hwaccel", hw] | none => []) ++
      ["-i", cmd.input],
      (match cmd.video_codec with | some c => ["-c:v", c] | none => []) ++
      (match cmd.audio_codec with | some c => ["-c:a", c] | none => []) ++
      (match cmd.quality with | some crf => ["-crf", toString crf] | none => []) ++
      (match cmd.bitrate with | some b => ["-b:v", toString b ++ "M"] | none => []) ++
      (match cmd.preset with | some pr => ["-preset", pr] | none => []) ++
      (match cmd.threads with | some t => ["-threads", toString t] | none => []) ++
      cmd.metadata_args ++ cmd.extra_args ++ [cmd.output], ?_, hfc⟩
    rw [FFmpegCommand.build, hargs]
    simp [List.append_assoc]
  · intro hv ha
    have hfc : filterComplexStr cmd = "[0:a]" ++
        String.intercalate "," (cmd.audio_filters.map AudioFilter.render) ++ "[a]" := by
      simp [filterComplexStr, List.isEmpty_iff, hv, ha]
    have hne : ¬(filterComplexStr cmd = "") := by
      rw [hfc]
      intro he
      have hd := congrArg String.data he
      rw [String.data_append, String.data_append] at hd
      simp at hd
    have hargs : buildFilterArgs cmd = ["-filter_complex", filterComplexStr cmd,
        "-map", "0:v?", "-map", "[a]"] := by
      rw [buildFilterArgs, if_neg hne]
      simp [List.isEmpty_iff, hv, ha]
    refine ⟨(if cmd.overwrite then ["-y"] else []) ++
      (match cmd.hw_accel with | some hw => ["-hwaccel", hw] | none => []) ++
      ["-i", cmd.input],
      (match cmd.video_codec with | some c => ["-c:v", c] | none => []) ++
      (match cmd.audio_codec with | some c => ["-c:a", c] | none => []) ++
      (match cmd.quality with | some crf => ["-crf", toString crf] | none => []) ++
      (match cmd.bitrate with | some b => ["-b:v", toString b ++ "M"] | none => []) ++
      (match cmd.preset with | some pr => ["-preset", pr] | none => []) ++
      (match cmd.threads with | some t => ["-threads", toString t] | none => []) ++
      cmd.metadata_args ++ cmd.extra_args ++ [cmd.output], ?_, hfc⟩
    rw [FFmpegCommand.build, hargs]
    simp [List.append_assoc]

/-- Witness for C4: a video-only filter set still maps the audio stream
through `-map 0:a?`. -/
theorem build_maps_unfiltered_witness :
    ∃ pre post, ((FFmpegCommand.new "i" "o").video_filter "deshake").build =
      pre ++ ["-filter_complex",
        filterComplexStr ((FFmpegCommand.new "i" "o").video_filter "deshake"),
        "-map", "[v]", "-map", "0:a?"] ++ post ∧
      filterComplexStr ((FFmpegCommand.new "i" "o").video_filter "deshake") =
        "[0:v]" ++ String.intercalate ","
          ((((FFmpegCommand.new "i" "o").video_filter
            "deshake").video_filters).map VideoFilter.render) ++ "[v]" :=
  (build_maps_unfiltered ((FFmpegCommand.new "i" "o").video_filter "deshake")).1
    (by decide) (by decide)

end Speedy
